import Mathlib

/-!
Shallow embedding of the DICOMassist selection-and-repair pipeline.

Sources embedded here:
  src/src/filtering/SliceSelector.ts   (selectSlicesForSelection, selectSlices,
                                        selectFromSeries, applyStrategy)
  src/src/llm/useLLMChat.ts            (fixSelection, estimateSliceCount,
                                        fixSelectionPlan, confirmPlan, cancelPlan)
  src/src/llm/LLMServiceFactory.ts     (parseSelectionPlan)
  src/src/dicom/MetadataExtractor.ts   (buildStudyMetadata)
  src/src/dicom/orientationUtils.ts    (detectPlaneFromOrientation)
  src/src/ui/ChatSidebar.tsx           (SLICE_REF_PATTERN, IMAGE_REF_PATTERN,
                                        parseSliceRefs, handleSliceClick)

Numeric conventions: TypeScript numbers that hold integer data (instance
numbers, series numbers, sampling parameters, window values, coordinates)
are embedded as Int; list indices and counts as Nat.  JavaScript
Math.round (round half toward positive infinity), Math.ceil of an integer
quotient, and the crash behaviour of indexing an array with NaN are made
explicit below.
-/

namespace DICOMassist

/-- JavaScript Math.round of the rational a / b for natural a and positive b:
round-half-up, computed as floor of (2a + b) / (2b). -/
def jsRoundDiv (a b : Nat) : Nat := (2 * a + b) / (2 * b)

/-- JavaScript Math.ceil of the rational a / b for integer a and b, as used in
estimateSliceCount (only ever called with b positive there). -/
def jsCeilDiv (a b : Int) : Int := -((-a).fdiv b)

/-- JavaScript Math.round ((x + y) / 2) for natural x and y. -/
def jsRoundHalf (x y : Nat) : Nat := (x + y + 1) / 2

-- ---------------------------------------------------------------------------
-- Data model (src/src/dicom, shapes as constructed by MetadataExtractor.ts)
-- ---------------------------------------------------------------------------

inductive AnatomicalPlane where
  | axial | sagittal | coronal | oblique
deriving DecidableEq, Repr, Inhabited

structure SliceMetadata where
  instanceNumber : Int
  imagePositionPatient : Int × Int × Int
  imageOrientationPatient : Int × Int × Int × Int × Int × Int
  sliceLocation : Option Int
  imageId : String
deriving DecidableEq, Repr, Inhabited

structure SeriesMetadata where
  seriesInstanceUID : String
  seriesNumber : Int
  seriesDescription : String
  modality : String
  sliceThickness : Option Int
  spacingBetweenSlices : Option Int
  convolutionKernel : Option String
  windowCenter : Option Int
  windowWidth : Option Int
  anatomicalPlane : AnatomicalPlane
  zMin : Int
  zMax : Int
  zCoverageInMm : Int
  instanceNumberRange : Int × Int
  slices : List SliceMetadata
deriving DecidableEq, Repr, Inhabited

structure StudyMetadata where
  studyDescription : String
  bodyPartExamined : Option String
  modality : String
  patientAge : Option String
  patientSex : Option String
  studyDate : Option String
  institutionName : Option String
  primarySeriesUID : String
  series : List SeriesMetadata
deriving DecidableEq, Repr, Inhabited

-- ---------------------------------------------------------------------------
-- Plan model (src/src/llm/types.ts)
-- ---------------------------------------------------------------------------

/-- Sampling strategy; the constructor other stands for an unrecognized string
value, which applyStrategy handles in its default switch case. -/
inductive SamplingStrategy where
  | all | every_nth | uniform | other
deriving DecidableEq, Repr, Inhabited

inductive SelectionRole where
  | primary | supplementary
deriving DecidableEq, Repr, Inhabited

structure SeriesSelection where
  seriesNumber : String
  role : SelectionRole
  rationale : String
  sliceRange : Int × Int
  samplingStrategy : SamplingStrategy
  samplingParam : Option Int
  windowWidth : Int
  windowCenter : Int
deriving DecidableEq, Repr, Inhabited

structure SelectionPlan where
  reasoning : String
  selections : List SeriesSelection
  totalImages : Int
  targetSeries : String
  sliceRange : Int × Int
  windowCenter : Int
  windowWidth : Int
  samplingStrategy : SamplingStrategy
  samplingParam : Option Int
deriving DecidableEq, Repr, Inhabited

-- ---------------------------------------------------------------------------
-- SliceSelector.ts
-- ---------------------------------------------------------------------------

def MAX_SLICES : Nat := 20

/-- Sampling inputs of selectFromSeries / applyStrategy; both a SeriesSelection
and a SelectionPlan are passed as this shape in the source. -/
structure SamplingParams where
  sliceRange : Int × Int
  samplingStrategy : SamplingStrategy
  samplingParam : Option Int
deriving DecidableEq, Repr, Inhabited

def SeriesSelection.toParams (sel : SeriesSelection) : SamplingParams :=
  ⟨sel.sliceRange, sel.samplingStrategy, sel.samplingParam⟩

def SelectionPlan.toParams (plan : SelectionPlan) : SamplingParams :=
  ⟨plan.sliceRange, plan.samplingStrategy, plan.samplingParam⟩

def varyingAxisIndex : AnatomicalPlane → Nat
  | .sagittal => 0
  | .coronal => 1
  | _ => 2

/-- Component access imagePositionPatient[axisIdx]. -/
def axisComponent (p : Int × Int × Int) (i : Nat) : Int :=
  if i = 0 then p.1 else if i = 1 then p.2.1 else p.2.2

structure SelectedSlice where
  imageId : String
  instanceNumber : Int
  sliceLocation : Option Int
  zPosition : Int
deriving DecidableEq, Repr, Inhabited

def SliceMetadata.toSelected (s : SliceMetadata) (axisIdx : Nat) : SelectedSlice :=
  ⟨s.imageId, s.instanceNumber, s.sliceLocation, axisComponent s.imagePositionPatient axisIdx⟩

/-- JavaScript test i % n === 0 for a natural index i and a number n.  For
n = 0 the remainder is NaN and the test is false; for negative n the JS
remainder of a nonnegative dividend equals i mod the absolute value. -/
def jsModIsZero (i : Nat) (n : Int) : Bool :=
  if n = 0 then false else i % n.natAbs = 0

/-- Positions round (i * (L - 1) / (count - 1)) for i in range count, used by
the uniform strategy and by the hard cap. -/
def uniformIndices (L count : Nat) : List Nat :=
  (List.range count).map (fun i => jsRoundDiv (i * (L - 1)) (count - 1))

/-- Index a list at each given position; none when a position is out of range
(in the source this is an array access returning undefined, which makes the
subsequent property access throw). -/
def pickIdx (l : List α) : List Nat → Option (List α)
  | [] => some []
  | i :: is =>
    match l.get? i, pickIdx l is with
    | some x, some xs => some (x :: xs)
    | _, _ => none

/-- The strategy switch of applyStrategy, before the hard cap.  In the uniform
branch the source computes indices round (i * (L-1) / (count-1)); when
count = 1 and 1 < L this divides zero by zero (NaN), the array access yields
undefined and the later map throws: embedded as none. -/
def rawStrategy (slices : List SliceMetadata) (params : SamplingParams) :
    Option (List SliceMetadata) :=
  match params.samplingStrategy with
  | .all => some slices
  | .every_nth =>
    let n : Int := params.samplingParam.getD 2
    some (((slices.enum).filter (fun p => jsModIsZero p.1 n)).map (·.2))
  | .uniform =>
    let count : Int := min (params.samplingParam.getD 10) (slices.length : Int)
    if count ≥ (slices.length : Int) then some slices
    else if count = 1 then none
    else pickIdx slices (uniformIndices slices.length count.toNat)
  | .other => some slices

/-- Hard cap of applyStrategy: when the strategy result exceeds maxSlices it is
re-sampled with the uniform position formula down to exactly maxSlices.  The
degenerate maxSlices = 1 re-sample would divide zero by zero in the source
(never reached: the only call site uses the default 20). -/
def hardCap (selected : List SliceMetadata) (maxSlices : Nat) :
    Option (List SliceMetadata) :=
  if selected.length > maxSlices then
    if maxSlices = 1 then none
    else pickIdx selected (uniformIndices selected.length maxSlices)
  else some selected

def applyStrategy (slices : List SliceMetadata) (params : SamplingParams)
    (axisIdx : Nat) (maxSlices : Nat := MAX_SLICES) : Option (List SelectedSlice) := do
  let selected ← rawStrategy slices params
  let capped ← hardCap selected maxSlices
  pure (capped.map (SliceMetadata.toSelected · axisIdx))

/-- Stable ascending insertion by an integer key: an element is placed after
every element of equal key, matching the stability of a JS sort with a
subtracting comparator. -/
def insertByKey (key : α → Int) (x : α) : List α → List α
  | [] => [x]
  | y :: ys =>
    if key x < key y then x :: y :: ys
    else y :: insertByKey key x ys

/-- Stable ascending sort by an integer key (JS Array sort is stable). -/
def sortByKey (key : α → Int) (l : List α) : List α :=
  l.foldl (fun acc x => insertByKey key x acc) []

/-- Sort by the comparator (a, b) => a.instanceNumber - b.instanceNumber. -/
def sortByInstance (l : List SliceMetadata) : List SliceMetadata :=
  sortByKey (·.instanceNumber) l

def selectFromSeries (series : SeriesMetadata) (params : SamplingParams) :
    Option (List SelectedSlice) :=
  let rangeStart := params.sliceRange.1
  let rangeEnd := params.sliceRange.2
  let axisIdx := varyingAxisIndex series.anatomicalPlane
  let inRange := series.slices.filter
    (fun s => rangeStart ≤ s.instanceNumber ∧ s.instanceNumber ≤ rangeEnd)
  let slicesToSample := if inRange.length = 0 then series.slices else inRange
  applyStrategy (sortByInstance slicesToSample) params axisIdx

/-- Per-selection entry point: a selection whose series number matches no
series of the study yields the empty list, with no fallback. -/
def selectSlicesForSelection (metadata : StudyMetadata) (selection : SeriesSelection) :
    Option (List SelectedSlice) :=
  match metadata.series.find? (fun s => toString s.seriesNumber == selection.seriesNumber) with
  | none => some []
  | some series => selectFromSeries series selection.toParams

/-- Legacy entry point: falls back to the primary series when the target series
is not found. -/
def selectSlices (metadata : StudyMetadata) (plan : SelectionPlan) :
    Option (List SelectedSlice) :=
  match metadata.series.find? (fun s => toString s.seriesNumber == plan.targetSeries) with
  | none =>
    match metadata.series.find? (fun s => s.seriesInstanceUID == metadata.primarySeriesUID) with
    | none => some []
    | some primary => selectFromSeries primary plan.toParams
  | some series => selectFromSeries series plan.toParams

-- ---------------------------------------------------------------------------
-- Plan repair (src/src/llm/useLLMChat.ts, fixSelection / estimateSliceCount /
-- fixSelectionPlan)
-- ---------------------------------------------------------------------------

/-- Fix a single SeriesSelection against its series metadata: swap a reversed
range, clamp it to the series instance-number bounds, and normalize the
sampling strategy and parameter against the budget.  A selection whose series
is not found is returned unmodified. -/
def fixSelection (sel : SeriesSelection) (metadata : StudyMetadata) (maxBudget : Int) :
    SeriesSelection :=
  match metadata.series.find? (fun s => toString s.seriesNumber == sel.seriesNumber) with
  | none => sel
  | some series =>
    let minInst := series.instanceNumberRange.1
    let maxInst := series.instanceNumberRange.2
    let s0 := sel.sliceRange.1
    let e0 := sel.sliceRange.2
    let s1 := if s0 > e0 then e0 else s0
    let e1 := if s0 > e0 then s0 else e0
    let start := max minInst s1
    let stop := min maxInst e1
    let rangeSize := stop - start + 1
    let st1 := if sel.samplingStrategy = .all ∧ rangeSize > maxBudget then
                 SamplingStrategy.uniform else sel.samplingStrategy
    let p1 := if sel.samplingStrategy = .all ∧ rangeSize > maxBudget then
                some maxBudget else sel.samplingParam
    let p2 := if st1 = SamplingStrategy.uniform ∧ (p1.isNone ∨ p1.getD 0 < 1) then
                some (min maxBudget rangeSize) else p1
    let p3 := match p2 with
      | some p => if st1 = SamplingStrategy.uniform ∧ p > rangeSize then
                    some rangeSize else some p
      | none => none
    let p4 := match p3 with
      | some p => if st1 = SamplingStrategy.uniform ∧ p > maxBudget then
                    some maxBudget else some p
      | none => none
    { sel with sliceRange := (start, stop), samplingStrategy := st1, samplingParam := p4 }

/-- Estimate the number of slices a selection will produce. -/
def estimateSliceCount (sel : SeriesSelection) : Int :=
  let rangeSize := sel.sliceRange.2 - sel.sliceRange.1 + 1
  match sel.samplingStrategy, sel.samplingParam with
  | .uniform, some p => min p rangeSize
  | .every_nth, some p => if p > 0 then jsCeilDiv rangeSize p else rangeSize
  | _, _ => rangeSize

def sumEstimates (sels : List SeriesSelection) : Int :=
  sels.foldl (fun sum s => sum + estimateSliceCount s) 0

/-- The supplementary-reduction loop of fixSelectionPlan: walk indices from
the end of the list toward the front while the total exceeds the budget,
replacing each supplementary selection by uniform sampling with a count
reduced by the current excess (never below 2).  The argument i is one past
the index handled next. -/
def reduceSupplementary (maxTotal : Int) :
    List SeriesSelection → Nat → List SeriesSelection
  | sels, 0 => sels
  | sels, i + 1 =>
    if sumEstimates sels ≤ maxTotal then sels
    else
      match sels.get? i with
      | none => reduceSupplementary maxTotal sels i
      | some s =>
        if s.role ≠ .supplementary then reduceSupplementary maxTotal sels i
        else
          let current := estimateSliceCount s
          let excess := sumEstimates sels - maxTotal
          let newCount := max 2 (current - excess)
          reduceSupplementary maxTotal
            (sels.set i { s with samplingStrategy := .uniform,
                                 samplingParam := some newCount }) i

/-- Second stage of the over-budget path: when the total still exceeds the
budget, keep only primary-role selections (unless none exist). -/
def dropSupplementary (maxTotal : Int) (f1 : List SeriesSelection) :
    List SeriesSelection :=
  if sumEstimates f1 > maxTotal then
    let primaryOnly := f1.filter (fun s => s.role == SelectionRole.primary)
    if primaryOnly.length > 0 then primaryOnly else f1
  else f1

/-- Third stage of the over-budget path: when the total still exceeds the
budget, force the first selection to uniform sampling with the budget as
parameter. -/
def capFirst (maxTotal : Int) (f2 : List SeriesSelection) : List SeriesSelection :=
  if sumEstimates f2 > maxTotal ∧ f2.length > 0 then
    match f2 with
    | [] => f2
    | s :: rest =>
      ({ s with samplingStrategy := .uniform, samplingParam := some maxTotal }) :: rest
  else f2

/-- Global budget enforcement of fixSelectionPlan over the per-selection
fixed list. -/
def globalReduce (maxTotal : Int) (fixed : List SeriesSelection) :
    List SeriesSelection :=
  if sumEstimates fixed > maxTotal then
    capFirst maxTotal
      (dropSupplementary maxTotal (reduceSupplementary maxTotal fixed fixed.length))
  else fixed

/-- Fix all selections in a plan and enforce a total of at most 20, reducing
supplementary selections first, then dropping them, then capping the first
remaining selection.  Legacy scalar fields are re-populated from the first
selection; with an empty selections list that access throws in the source,
embedded as none. -/
def fixSelectionPlan (plan : SelectionPlan) (metadata : StudyMetadata) :
    Option SelectionPlan :=
  let maxTotal : Int := 20
  let fixed2 := globalReduce maxTotal (plan.selections.map (fixSelection · metadata maxTotal))
  match fixed2 with
  | [] => none
  | primary :: _ =>
    some { plan with
      selections := fixed2,
      totalImages := sumEstimates fixed2,
      targetSeries := primary.seriesNumber,
      sliceRange := primary.sliceRange,
      windowCenter := primary.windowCenter,
      windowWidth := primary.windowWidth,
      samplingStrategy := primary.samplingStrategy,
      samplingParam := primary.samplingParam }

-- ---------------------------------------------------------------------------
-- Concrete fixtures used by counterexamples and witnesses
-- ---------------------------------------------------------------------------

def mkSeries (num lo hi : Int) : SeriesMetadata :=
  { seriesInstanceUID := toString num, seriesNumber := num, seriesDescription := "",
    modality := "CT", sliceThickness := none, spacingBetweenSlices := none,
    convolutionKernel := none, windowCenter := none, windowWidth := none,
    anatomicalPlane := .axial, zMin := 0, zMax := 0, zCoverageInMm := 0,
    instanceNumberRange := (lo, hi), slices := [] }

def mkStudy (ss : List SeriesMetadata) : StudyMetadata :=
  { studyDescription := "", bodyPartExamined := none, modality := "CT",
    patientAge := none, patientSex := none, studyDate := none,
    institutionName := none, primarySeriesUID := "", series := ss }

def mkSel (sn : String) (r : SelectionRole) (lo hi : Int) (st : SamplingStrategy)
    (p : Option Int) : SeriesSelection :=
  { seriesNumber := sn, role := r, rationale := "", sliceRange := (lo, hi),
    samplingStrategy := st, samplingParam := p, windowWidth := 400, windowCenter := 40 }

def mkPlan (sels : List SeriesSelection) : SelectionPlan :=
  { reasoning := "", selections := sels, totalImages := 0,
    targetSeries := (sels.headD default).seriesNumber,
    sliceRange := (sels.headD default).sliceRange,
    windowCenter := (sels.headD default).windowCenter,
    windowWidth := (sels.headD default).windowWidth,
    samplingStrategy := (sels.headD default).samplingStrategy,
    samplingParam := (sels.headD default).samplingParam }

def mkSlice (n : Int) : SliceMetadata :=
  { instanceNumber := n, imagePositionPatient := (0, 0, n),
    imageOrientationPatient := (1, 0, 0, 0, 1, 0), sliceLocation := none,
    imageId := toString n }

-- ---------------------------------------------------------------------------
-- Helper lemmas on plan repair
-- ---------------------------------------------------------------------------

theorem fixSelection_role (sel : SeriesSelection) (m : StudyMetadata) (b : Int) :
    (fixSelection sel m b).role = sel.role := by
  unfold fixSelection
  cases m.series.find? (fun s => toString s.seriesNumber == sel.seriesNumber) <;> rfl

theorem countP_map_fixSelection (l : List SeriesSelection) (m : StudyMetadata) (b : Int) :
    (l.map (fixSelection · m b)).countP (fun s => s.role == SelectionRole.primary)
      = l.countP (fun s => s.role == SelectionRole.primary) := by
  induction l with
  | nil => rfl
  | cons x xs ih => simp [List.countP_cons, ih, fixSelection_role]

theorem countP_set_role (l : List SeriesSelection) (i : Nat) (s x : SeriesSelection)
    (h : l.get? i = some s) (hrole : x.role = s.role) :
    (l.set i x).countP (fun t => t.role == SelectionRole.primary)
      = l.countP (fun t => t.role == SelectionRole.primary) := by
  induction l generalizing i with
  | nil => simp at h
  | cons y ys ih =>
    cases i with
    | zero =>
      simp only [List.get?] at h
      injection h with h
      subst h
      simp [List.countP_cons, hrole]
    | succ j =>
      simp only [List.get?] at h
      simp [List.countP_cons, ih j h]

theorem countP_reduceSupplementary (t : Int) (l : List SeriesSelection) (i : Nat) :
    (reduceSupplementary t l i).countP (fun s => s.role == SelectionRole.primary)
      = l.countP (fun s => s.role == SelectionRole.primary) := by
  induction i generalizing l with
  | zero => rfl
  | succ j ih =>
    unfold reduceSupplementary
    split
    · rfl
    · cases hg : l.get? j with
      | none => simp only [hg]; exact ih l
      | some s =>
        simp only [hg]
        split
        · exact ih l
        · rw [ih _]
          exact countP_set_role _ _ _ _ hg rfl

theorem sumEstimates_singleton (s : SeriesSelection) :
    sumEstimates [s] = estimateSliceCount s := by
  simp [sumEstimates]

theorem capFirst_singleton_le (s : SeriesSelection) :
    sumEstimates (capFirst 20 [s]) ≤ 20 := by
  unfold capFirst
  split
  · rw [sumEstimates_singleton]
    simp only [estimateSliceCount]
    exact min_le_left _ _
  · rename_i hcond
    rw [sumEstimates_singleton]
    rw [sumEstimates_singleton] at hcond
    simp only [List.length_cons, List.length_nil] at hcond
    omega

theorem capFirst_of_le (f2 : List SeriesSelection) (h : sumEstimates f2 ≤ 20) :
    capFirst 20 f2 = f2 := by
  unfold capFirst
  rw [if_neg]
  intro hc
  omega

theorem dropSupplementary_of_one_primary (f1 : List SeriesSelection)
    (hone : f1.countP (fun s => s.role == SelectionRole.primary) = 1) :
    sumEstimates (dropSupplementary 20 f1) ≤ 20 ∨
      ∃ p, dropSupplementary 20 f1 = [p] := by
  unfold dropSupplementary
  split
  · right
    have hlen : (f1.filter (fun s => s.role == SelectionRole.primary)).length = 1 := by
      rw [← List.countP_eq_length_filter]
      exact hone
    rw [if_pos (by omega)]
    exact List.length_eq_one.mp hlen
  · left
    omega

theorem globalReduce_le_of_one_primary (l : List SeriesSelection)
    (hone : l.countP (fun s => s.role == SelectionRole.primary) = 1) :
    sumEstimates (globalReduce 20 l) ≤ 20 := by
  unfold globalReduce
  split
  · have h1 : (reduceSupplementary 20 l l.length).countP
        (fun s => s.role == SelectionRole.primary) = 1 := by
      rw [countP_reduceSupplementary]
      exact hone
    rcases dropSupplementary_of_one_primary _ h1 with hle | ⟨p, hp⟩
    · rw [capFirst_of_le _ hle]
      exact hle
    · rw [hp]
      exact capFirst_singleton_le p
  · omega

-- ---------------------------------------------------------------------------
-- Claim C1: budget invariant of plan repair
-- ---------------------------------------------------------------------------

def c1Plan : SelectionPlan :=
  mkPlan [mkSel "1" .primary 1 15 .all none, mkSel "2" .primary 1 15 .all none]

/-- Claim C1, counterexample: the claim states that for EVERY raw plan with a
non-empty selections list the repaired total is at most 20, regardless of the
roles the selections carry.  A plan with two primary-role selections of 15
slices each (referencing series absent from the study, so passed through
unmodified) is repaired to a plan whose summed estimated image count is 30:
the final cap only rewrites the first selection. -/
theorem fixSelectionPlan_budget_counterexample :
    (fixSelectionPlan c1Plan (mkStudy [])).map (fun p => sumEstimates p.selections)
        = some 30 ∧
      (fixSelectionPlan c1Plan (mkStudy [])).map SelectionPlan.totalImages = some 30 ∧
      ¬ ((30 : Int) ≤ 20) := by
  refine ⟨by rfl, by rfl, by decide⟩

/-- Claim C1 (amended): for every study and every raw SelectionPlan containing
exactly one primary-role selection, the plan returned by fixSelectionPlan has
a total estimated image count (summing per selection the estimate: range size
for strategy all, min of samplingParam and range size for uniform, range size
over samplingParam rounded up for every_nth) of at most 20. -/
theorem fixSelectionPlan_total_le_budget (plan : SelectionPlan) (metadata : StudyMetadata)
    (hone : plan.selections.countP (fun s => s.role == SelectionRole.primary) = 1)
    (p' : SelectionPlan) (h : fixSelectionPlan plan metadata = some p') :
    sumEstimates p'.selections ≤ 20 ∧ p'.totalImages ≤ 20 := by
  have hle : sumEstimates (globalReduce 20 (plan.selections.map (fixSelection · metadata 20))) ≤ 20 := by
    apply globalReduce_le_of_one_primary
    rw [countP_map_fixSelection]
    exact hone
  simp only [fixSelectionPlan] at h
  split at h
  · exact absurd h (by simp)
  · rename_i s0 rest heq
    injection h with h
    subst h
    exact ⟨hle, hle⟩

def c1wPlan : SelectionPlan :=
  mkPlan [mkSel "1" .primary 1 15 .all none, mkSel "2" .supplementary 1 10 .all none]

def c1wStudy : StudyMetadata := mkStudy [mkSeries 1 1 100, mkSeries 2 1 100]

/-- Witness for the amended C1 theorem at a concrete over-budget plan
(primary 15 plus supplementary 10, reduced to a total of 20). -/
theorem fixSelectionPlan_total_le_budget_witness :
    sumEstimates ((fixSelectionPlan c1wPlan c1wStudy).getD default).selections ≤ 20 ∧
      ((fixSelectionPlan c1wPlan c1wStudy).getD default).totalImages ≤ 20 :=
  fixSelectionPlan_total_le_budget c1wPlan c1wStudy (by decide) _ (by rfl)

-- ---------------------------------------------------------------------------
-- Claim C2: range-subset invariant of per-selection repair
-- ---------------------------------------------------------------------------

def c2Study : StudyMetadata := mkStudy [mkSeries 1 1 10]

/-- Claim C2, counterexample: the claim states the repaired range is a
non-empty correctly ordered subset of the series bounds even when the raw
range lies entirely outside the bounds.  For series bounds 1 to 10 and raw
range 20 to 30, the clamp produces the reversed, out-of-bounds range
(20, 10): start exceeds both the end and the series maximum. -/
theorem fixSelection_range_counterexample :
    (fixSelection (mkSel "1" .primary 20 30 .all none) c2Study 20).sliceRange = (20, 10) ∧
      ¬ ((20 : Int) ≤ 10) := by
  refine ⟨by rfl, by decide⟩

/-- Claim C2 (amended): for every SeriesSelection whose referenced series
exists, has ordered instance-number bounds, and whose raw slice range
overlaps those bounds, the range of the selection returned by fixSelection
satisfies seriesMin ≤ start ≤ end ≤ seriesMax (swapping first if the raw
range was reversed, then clamping). -/
theorem fixSelection_range_subset (sel : SeriesSelection) (metadata : StudyMetadata)
    (maxBudget : Int) (series : SeriesMetadata)
    (hfind : metadata.series.find? (fun s => toString s.seriesNumber == sel.seriesNumber)
        = some series)
    (hbounds : series.instanceNumberRange.1 ≤ series.instanceNumberRange.2)
    (hov1 : min sel.sliceRange.1 sel.sliceRange.2 ≤ series.instanceNumberRange.2)
    (hov2 : series.instanceNumberRange.1 ≤ max sel.sliceRange.1 sel.sliceRange.2) :
    series.instanceNumberRange.1 ≤ (fixSelection sel metadata maxBudget).sliceRange.1 ∧
      (fixSelection sel metadata maxBudget).sliceRange.1
        ≤ (fixSelection sel metadata maxBudget).sliceRange.2 ∧
      (fixSelection sel metadata maxBudget).sliceRange.2
        ≤ series.instanceNumberRange.2 := by
  simp only [fixSelection, hfind]
  split <;> simp_all <;> omega

/-- Witness for the amended C2 theorem: a reversed raw range (30, 5) against
series bounds 1 to 10 repairs to the ordered in-bounds range (5, 10). -/
theorem fixSelection_range_subset_witness :
    (mkSeries 1 1 10).instanceNumberRange.1
        ≤ (fixSelection (mkSel "1" .primary 30 5 .all none) c2Study 20).sliceRange.1 ∧
      (fixSelection (mkSel "1" .primary 30 5 .all none) c2Study 20).sliceRange.1
        ≤ (fixSelection (mkSel "1" .primary 30 5 .all none) c2Study 20).sliceRange.2 ∧
      (fixSelection (mkSel "1" .primary 30 5 .all none) c2Study 20).sliceRange.2
        ≤ (mkSeries 1 1 10).instanceNumberRange.2 :=
  fixSelection_range_subset _ _ _ _ (by rfl) (by decide) (by decide) (by decide)

-- ---------------------------------------------------------------------------
-- Claim C6: idempotence of repair on already-valid plans
-- ---------------------------------------------------------------------------

/-- Validity of a single selection against a study, as listed by the claim:
the referenced series exists, the range is ordered and inside its bounds, an
all-strategy selection spans at most the budget, and a uniform parameter is
present, positive, and at most both the range size and the budget. -/
def ValidSelection (metadata : StudyMetadata) (sel : SeriesSelection) : Prop :=
  ∃ series,
    metadata.series.find? (fun s => toString s.seriesNumber == sel.seriesNumber)
        = some series ∧
    series.instanceNumberRange.1 ≤ sel.sliceRange.1 ∧
    sel.sliceRange.1 ≤ sel.sliceRange.2 ∧
    sel.sliceRange.2 ≤ series.instanceNumberRange.2 ∧
    (sel.samplingStrategy = .all → sel.sliceRange.2 - sel.sliceRange.1 + 1 ≤ 20) ∧
    (sel.samplingStrategy = .uniform → ∃ p, sel.samplingParam = some p ∧ 1 ≤ p ∧
        p ≤ sel.sliceRange.2 - sel.sliceRange.1 + 1 ∧ p ≤ 20)

theorem fixSelection_fixes_valid (sel : SeriesSelection) (metadata : StudyMetadata)
    (hv : ValidSelection metadata sel) : fixSelection sel metadata 20 = sel := by
  obtain ⟨series, hfind, h1, h2, h3, hall, huni⟩ := hv
  obtain ⟨sn, role, rat, ⟨r1, r2⟩, st, par, ww, wc⟩ := sel
  simp only at h1 h2 h3 hall huni
  simp only [fixSelection, hfind]
  cases st with
  | all =>
    have hrs := hall rfl
    cases par <;>
      · split_ifs <;> simp_all <;> omega
  | uniform =>
    obtain ⟨p, hp, hp1, hp2, hp3⟩ := huni rfl
    subst hp
    split_ifs <;> simp_all
    all_goals (try omega)
    all_goals
      rw [show (if r2 - r1 + 1 < p then some (r2 - r1 + 1) else some p) = some p by
        rw [if_neg (by omega)]]
      show (if 20 < p then some 20 else some p) = some p
      rw [if_neg (by omega)]
  | every_nth =>
    cases par <;>
      · split_ifs <;> simp_all <;> omega
  | other =>
    cases par <;>
      · split_ifs <;> simp_all <;> omega

/-- Claim C6: for every study and every plan already valid against it (every
selection valid, summed estimate within budget, totalImages derived from the
selections, legacy scalar mirrors equal to the first selection's fields),
fixSelectionPlan returns the plan unchanged. -/
theorem fixSelectionPlan_idempotent (plan : SelectionPlan) (metadata : StudyMetadata)
    (hvalid : ∀ sel ∈ plan.selections, ValidSelection metadata sel)
    (htot : sumEstimates plan.selections ≤ 20)
    (htotEq : plan.totalImages = sumEstimates plan.selections)
    (hmirror : ∀ s0 rest, plan.selections = s0 :: rest →
        plan.targetSeries = s0.seriesNumber ∧ plan.sliceRange = s0.sliceRange ∧
        plan.windowCenter = s0.windowCenter ∧ plan.windowWidth = s0.windowWidth ∧
        plan.samplingStrategy = s0.samplingStrategy ∧
        plan.samplingParam = s0.samplingParam)
    (hne : plan.selections ≠ []) :
    fixSelectionPlan plan metadata = some plan := by
  have hmap : plan.selections.map (fixSelection · metadata 20) = plan.selections := by
    have : ∀ l : List SeriesSelection, (∀ sel ∈ l, ValidSelection metadata sel) →
        l.map (fixSelection · metadata 20) = l := by
      intro l
      induction l with
      | nil => intro _; rfl
      | cons x xs ih =>
        intro hl
        simp only [List.map_cons]
        rw [fixSelection_fixes_valid x metadata (hl x (by simp)),
          ih (fun s hs => hl s (by simp [hs]))]
    exact this _ hvalid
  have hglob : globalReduce 20 plan.selections = plan.selections := by
    unfold globalReduce
    rw [if_neg]
    omega
  simp only [fixSelectionPlan, hmap, hglob]
  cases hsel : plan.selections with
  | nil => exact absurd hsel hne
  | cons s0 rest =>
    obtain ⟨ht, hr, hwc, hww, hst, hsp⟩ := hmirror s0 rest hsel
    rw [hsel] at htotEq
    refine congrArg some ?_
    rw [← htotEq, ← hsel, ← ht, ← hr, ← hwc, ← hww, ← hst, ← hsp]

def c6Study : StudyMetadata := mkStudy [mkSeries 5 1 200]

def c6Plan : SelectionPlan :=
  { mkPlan [mkSel "5" .primary 1 200 .uniform (some 15)] with totalImages := 15 }

/-- Witness for the C6 theorem at the spec scenario: series bounds 1 to 200,
primary selection over the full range with uniform parameter 15 is already
valid and is repaired to itself. -/
theorem fixSelectionPlan_idempotent_witness :
    fixSelectionPlan c6Plan c6Study = some c6Plan :=
  fixSelectionPlan_idempotent c6Plan c6Study
    (by
      intro sel hsel
      refine ⟨mkSeries 5 1 200, ?_⟩
      simp only [c6Plan, mkPlan, mkSel, List.mem_singleton] at hsel
      subst hsel
      refine ⟨by rfl, by decide, by decide, by decide, by decide, ?_⟩
      intro _
      exact ⟨15, rfl, by decide, by decide, by decide⟩)
    (by decide) (by decide)
    (by
      intro s0 rest h
      simp only [c6Plan, mkPlan, mkSel] at h ⊢
      injection h with h1 h2
      subst h1
      simp)
    (by decide)

-- ---------------------------------------------------------------------------
-- Study model builder (src/src/dicom/MetadataExtractor.ts and
-- src/src/dicom/orientationUtils.ts)
-- ---------------------------------------------------------------------------

/-- Raw per-file metadata extracted during the parse pass. -/
structure RawFileRecord where
  instanceNumber : Int
  zPosition : Int
  imagePositionPatient : Int × Int × Int
  imageOrientationPatient : Int × Int × Int × Int × Int × Int
  sliceLocation : Option Int
  seriesInstanceUID : String
  seriesNumber : Int
  seriesDescription : String
  modality : String
  sliceThickness : Option Int
  spacingBetweenSlices : Option Int
  convolutionKernel : Option String
  windowCenter : Option Int
  windowWidth : Option Int
  studyDescription : String
  bodyPartExamined : Option String
  patientAge : Option String
  patientSex : Option String
  studyDate : Option String
  institutionName : Option String
  imageId : String
deriving DecidableEq, Repr, Inhabited

/-- Detect the acquisition plane from the six direction cosines.  The source
takes the tag as a backslash-joined string and re-parses it; the serialize
and parse round-trip is elided here, with none standing for a missing or
malformed tag. -/
def detectPlaneFromOrientation
    (iop : Option (Int × Int × Int × Int × Int × Int)) : AnatomicalPlane :=
  match iop with
  | none => .axial
  | some (rowX, rowY, rowZ, colX, colY, colZ) =>
    let nx := |rowY * colZ - rowZ * colY|
    let ny := |rowZ * colX - rowX * colZ|
    let nz := |rowX * colY - rowY * colX|
    if nz ≥ nx ∧ nz ≥ ny then .axial
    else if nx ≥ ny ∧ nx ≥ nz then .sagittal
    else .coronal

/-- Append a record to its series group, preserving first-seen key order as a
JS Map does. -/
def addToGroup (groups : List (String × List RawFileRecord)) (uid : String)
    (r : RawFileRecord) : List (String × List RawFileRecord) :=
  match groups with
  | [] => [(uid, [r])]
  | (k, rs) :: rest =>
    if k == uid then (k, rs ++ [r]) :: rest
    else (k, rs) :: addToGroup rest uid r

def groupBySeriesUID (records : List RawFileRecord) :
    List (String × List RawFileRecord) :=
  records.foldl (fun gs r => addToGroup gs r.seriesInstanceUID r) []

def listMin : List Int → Int
  | [] => 0
  | x :: xs => xs.foldl min x

def listMax : List Int → Int
  | [] => 0
  | x :: xs => xs.foldl max x

/-- Build one SeriesMetadata from a grouped record list (never empty: groups
are created with one record and only ever appended to). -/
def buildSeries (uid : String) (recs : List RawFileRecord) : SeriesMetadata :=
  let rep := recs.headD default
  let plane := detectPlaneFromOrientation (some rep.imageOrientationPatient)
  let allSameZ := recs.all (fun r => r.zPosition == rep.zPosition)
  let sorted := if allSameZ then sortByKey (·.instanceNumber) recs
                else sortByKey (·.zPosition) recs
  let slices : List SliceMetadata := sorted.map (fun r =>
    { instanceNumber := r.instanceNumber,
      imagePositionPatient := r.imagePositionPatient,
      imageOrientationPatient := r.imageOrientationPatient,
      sliceLocation := r.sliceLocation,
      imageId := r.imageId })
  let zPositions := sorted.map (·.zPosition)
  let zMin := listMin zPositions
  let zMax := listMax zPositions
  let instanceNumbers := sorted.map (·.instanceNumber)
  { seriesInstanceUID := uid,
    seriesNumber := rep.seriesNumber,
    seriesDescription := rep.seriesDescription,
    modality := rep.modality,
    sliceThickness := rep.sliceThickness,
    spacingBetweenSlices := rep.spacingBetweenSlices,
    convolutionKernel := rep.convolutionKernel,
    windowCenter := rep.windowCenter,
    windowWidth := rep.windowWidth,
    anatomicalPlane :=
      if plane = .axial ∨ plane = .coronal ∨ plane = .sagittal then plane else .oblique,
    zMin := zMin,
    zMax := zMax,
    zCoverageInMm := |zMax - zMin|,
    instanceNumberRange := (listMin instanceNumbers, listMax instanceNumbers),
    slices := slices }

/-- JS Array reduce without an initial value: the first element seeds the
accumulator (throws on an empty array; callers guard on nonemptiness). -/
def reduce1 (f : α → α → α) : List α → Option α
  | [] => none
  | x :: xs => some (xs.foldl f x)

/-- Primary-series preference: more slices wins, ties break toward the lower
series number. -/
def betterPrimary (best s : SeriesMetadata) : SeriesMetadata :=
  if s.slices.length > best.slices.length ∨
      (s.slices.length = best.slices.length ∧ s.seriesNumber < best.seriesNumber)
  then s else best

/-- Group raw file records by series and build the full StudyMetadata: on
zero records, return an empty study with an empty primary-series reference
instead of raising. -/
def buildStudyMetadata (records : List RawFileRecord) : StudyMetadata :=
  if records.isEmpty then
    { studyDescription := "", bodyPartExamined := none, modality := "unknown",
      patientAge := none, patientSex := none, studyDate := none,
      institutionName := none, primarySeriesUID := "", series := [] }
  else
    let first := records.headD default
    let series0 := (groupBySeriesUID records).map (fun g => buildSeries g.1 g.2)
    let series := sortByKey (·.seriesNumber) series0
    let axialSeries := series.filter (fun s => s.anatomicalPlane == AnatomicalPlane.axial)
    let primary :=
      if axialSeries.length > 0 then (reduce1 betterPrimary axialSeries).getD default
      else (reduce1 betterPrimary series).getD default
    { studyDescription := first.studyDescription,
      bodyPartExamined := first.bodyPartExamined,
      modality := first.modality,
      patientAge := first.patientAge,
      patientSex := first.patientSex,
      studyDate := first.studyDate,
      institutionName := first.institutionName,
      primarySeriesUID := primary.seriesInstanceUID,
      series := series }

-- ---------------------------------------------------------------------------
-- Claim C9: empty-input behavior of the study builder
-- ---------------------------------------------------------------------------

/-- Claim C9: on zero input records buildStudyMetadata does not raise and
returns a Study whose series list is empty, whose primary-series reference is
the empty string, and whose descriptive fields are empty or placeholder
values, so callers detect the empty case by inspection. -/
theorem buildStudyMetadata_empty :
    buildStudyMetadata [] =
      { studyDescription := "", bodyPartExamined := none, modality := "unknown",
        patientAge := none, patientSex := none, studyDate := none,
        institutionName := none, primarySeriesUID := "", series := [] } ∧
      (buildStudyMetadata []).series = [] ∧
      (buildStudyMetadata []).primarySeriesUID = "" := by
  refine ⟨rfl, rfl, rfl⟩

-- ---------------------------------------------------------------------------
-- Claim C10: unknown-series sampling at the public interface
-- ---------------------------------------------------------------------------

/-- Claim C10: a SeriesSelection whose series number matches no series of the
study yields the empty list from selectSlicesForSelection, with none of the
primary-series fallback that the legacy selectSlices performs for its target
series. -/
theorem selectSlicesForSelection_unknown_series (metadata : StudyMetadata)
    (sel : SeriesSelection) (plan : SelectionPlan) (primary : SeriesMetadata)
    (h : metadata.series.find? (fun s => toString s.seriesNumber == sel.seriesNumber)
        = none)
    (hpt : plan.targetSeries = sel.seriesNumber)
    (hprim : metadata.series.find? (fun s => s.seriesInstanceUID == metadata.primarySeriesUID)
        = some primary) :
    selectSlicesForSelection metadata sel = some [] ∧
      selectSlices metadata plan = selectFromSeries primary plan.toParams := by
  constructor
  · unfold selectSlicesForSelection
    rw [h]
  · unfold selectSlices
    rw [hpt, h, hprim]

def c10Study : StudyMetadata :=
  { mkStudy [mkSeries 7 1 50] with primarySeriesUID := toString (7 : Int) }

/-- Witness for the C10 theorem: selection and plan target series 99, which
does not exist in a study whose only (primary) series is number 7. -/
theorem selectSlicesForSelection_unknown_series_witness :
    selectSlicesForSelection c10Study (mkSel "99" .primary 1 10 .all none) = some [] ∧
      selectSlices c10Study (mkPlan [mkSel "99" .primary 1 10 .all none])
        = selectFromSeries (mkSeries 7 1 50)
            (mkPlan [mkSel "99" .primary 1 10 .all none]).toParams :=
  selectSlicesForSelection_unknown_series c10Study
    (mkSel "99" .primary 1 10 .all none)
    (mkPlan [mkSel "99" .primary 1 10 .all none])
    (mkSeries 7 1 50) (by rfl) (by rfl) (by rfl)

-- ---------------------------------------------------------------------------
-- Arithmetic of the uniform position formula
-- ---------------------------------------------------------------------------

theorem jsRoundDiv_zero (b : Nat) (hb : 1 ≤ b) : jsRoundDiv 0 b = 0 := by
  unfold jsRoundDiv
  exact Nat.div_eq_of_lt (by omega)

theorem jsRoundDiv_mono (b : Nat) {a a' : Nat} (h : a ≤ a') :
    jsRoundDiv a b ≤ jsRoundDiv a' b :=
  Nat.div_le_div_right (by omega)

theorem jsRoundDiv_add_den (a b : Nat) (hb : 1 ≤ b) :
    jsRoundDiv (a + b) b = jsRoundDiv a b + 1 := by
  unfold jsRoundDiv
  rw [show 2 * (a + b) + b = 2 * a + b + 2 * b by ring]
  rw [Nat.add_div_right _ (by omega)]

theorem jsRoundDiv_mul_self (i b : Nat) (hb : 1 ≤ b) : jsRoundDiv (i * b) b = i := by
  unfold jsRoundDiv
  rw [show 2 * (i * b) + b = b * (2 * i + 1) by ring, show 2 * b = b * 2 by ring]
  rw [Nat.mul_div_mul_left _ _ (by omega)]
  omega

theorem jsRoundDiv_step (a a' b : Nat) (hb : 1 ≤ b) (h : a + b ≤ a') :
    jsRoundDiv a b < jsRoundDiv a' b := by
  have h1 := jsRoundDiv_add_den a b hb
  have h2 := jsRoundDiv_mono b h
  omega

theorem uniformIndices_length (L count : Nat) :
    (uniformIndices L count).length = count := by
  simp [uniformIndices]

theorem uniformIndices_chain (m n : Nat) (h2 : 2 ≤ n) (hnm : n ≤ m) :
    List.Chain' (· < ·) (uniformIndices m n) := by
  unfold uniformIndices
  rw [List.chain'_map]
  obtain ⟨k, rfl⟩ : ∃ k, n = k + 1 := ⟨n - 1, by omega⟩
  rw [List.chain'_range_succ]
  intro i hi
  simp only [Nat.succ_eq_add_one]
  apply jsRoundDiv_step _ _ _ (by omega)
  have hexp : (i + 1) * (m - 1) = i * (m - 1) + (m - 1) := by ring
  omega

theorem uniformIndices_head (m n : Nat) (h2 : 2 ≤ n) :
    (uniformIndices m n).head? = some 0 := by
  unfold uniformIndices
  obtain ⟨k, rfl⟩ : ∃ k, n = k + 1 := ⟨n - 1, by omega⟩
  simp only [List.range_succ_eq_map, List.map_cons, List.head?_cons, Nat.zero_mul]
  rw [show k + 1 - 1 = k by omega, jsRoundDiv_zero k (by omega)]

theorem uniformIndices_getLast (m n : Nat) (h2 : 2 ≤ n) :
    (uniformIndices m n).getLast? = some (m - 1) := by
  unfold uniformIndices
  obtain ⟨k, rfl⟩ : ∃ k, n = k + 1 := ⟨n - 1, by omega⟩
  rw [List.range_succ, List.map_append, List.map_cons, List.map_nil,
    List.getLast?_concat]
  rw [show k + 1 - 1 = k by omega, show k * (m - 1) = (m - 1) * k by ring,
    jsRoundDiv_mul_self _ _ (by omega)]

theorem uniformIndices_lt (m n : Nat) (h2 : 2 ≤ n) (hnm : n ≤ m) :
    ∀ x ∈ uniformIndices m n, x < m := by
  intro x hx
  unfold uniformIndices at hx
  obtain ⟨i, hi, rfl⟩ := List.mem_map.mp hx
  rw [List.mem_range] at hi
  have hmono : jsRoundDiv (i * (m - 1)) (n - 1)
      ≤ jsRoundDiv ((n - 1) * (m - 1)) (n - 1) :=
    jsRoundDiv_mono _ (Nat.mul_le_mul_right _ (by omega))
  rw [show (n - 1) * (m - 1) = (m - 1) * (n - 1) by ring,
    jsRoundDiv_mul_self _ _ (by omega)] at hmono
  omega

theorem pickIdx_length (l : List α) (idxs : List Nat) (out : List α)
    (h : pickIdx l idxs = some out) : out.length = idxs.length := by
  induction idxs generalizing out with
  | nil =>
    simp only [pickIdx] at h
    injection h with h
    subst h
    rfl
  | cons i is ih =>
    simp only [pickIdx] at h
    cases hg : l.get? i with
    | none => rw [hg] at h; exact absurd h (by simp)
    | some x =>
      rw [hg] at h
      cases hp : pickIdx l is with
      | none => rw [hp] at h; exact absurd h (by simp)
      | some xs =>
        rw [hp] at h
        injection h with h
        subst h
        simp [ih xs hp]

theorem get?_eq_getD_of_lt [Inhabited α] (l : List α) (j : Nat) (hj : j < l.length) :
    l.get? j = some (l.getD j default) := by
  cases hg : l.get? j with
  | none => rw [List.get?_eq_none] at hg; omega
  | some x =>
    have hx : l.getD j default = x := by
      simp [List.getD, ← List.get?_eq_getElem?, hg]
    rw [hx]

theorem pickIdx_all_lt [Inhabited α] (l : List α) (idxs : List Nat)
    (h : ∀ i ∈ idxs, i < l.length) :
    pickIdx l idxs = some (idxs.map (fun i => l.getD i default)) := by
  induction idxs with
  | nil => rfl
  | cons i is ih =>
    simp only [pickIdx, List.map_cons]
    rw [get?_eq_getD_of_lt l i (h i (by simp)), ih (fun j hj => h j (by simp [hj]))]

theorem map_getD_range [Inhabited α] (l : List α) :
    (List.range l.length).map (fun i => l.getD i default) = l := by
  induction l with
  | nil => rfl
  | cons x xs ih =>
    rw [List.length_cons, List.range_succ_eq_map, List.map_cons, List.map_map]
    simp only [List.getD_cons_zero]
    refine congrArg (x :: ·) ?_
    have hcomp : ((fun i => (x :: xs).getD i default) ∘ Nat.succ)
        = (fun i => xs.getD i default) := by
      funext i
      rfl
    rw [hcomp, ih]

-- ---------------------------------------------------------------------------
-- Evaluation lemmas for applyStrategy
-- ---------------------------------------------------------------------------

theorem hardCap_no_op (selected : List SliceMetadata) (maxSlices : Nat)
    (h : selected.length ≤ maxSlices) : hardCap selected maxSlices = some selected := by
  unfold hardCap
  rw [if_neg (by omega)]

theorem applyStrategy_eval (slices : List SliceMetadata) (params : SamplingParams)
    (axisIdx maxSlices : Nat) (X : List SliceMetadata)
    (hraw : rawStrategy slices params = some X) (hle : X.length ≤ maxSlices) :
    applyStrategy slices params axisIdx maxSlices
      = some (X.map (SliceMetadata.toSelected · axisIdx)) := by
  have h1 : applyStrategy slices params axisIdx maxSlices
      = (hardCap X maxSlices).bind
          (fun capped => some (capped.map (SliceMetadata.toSelected · axisIdx))) := by
    unfold applyStrategy
    rw [hraw]
    rfl
  rw [h1, hardCap_no_op _ _ hle]
  rfl

theorem rawStrategy_uniform_lt (slices : List SliceMetadata) (n : Nat) (r : Int × Int)
    (h2 : 2 ≤ n) (hlt : n < slices.length) :
    rawStrategy slices ⟨r, .uniform, some (n : Int)⟩
      = some ((uniformIndices slices.length n).map (fun i => slices.getD i default)) := by
  have hmin : min ((n : Int)) ((slices.length : Int)) = (n : Int) :=
    min_eq_left (by exact_mod_cast hlt.le)
  simp only [rawStrategy, Option.getD_some, hmin]
  rw [if_neg (by omega), if_neg (by omega)]
  rw [show ((n : Int)).toNat = n from Int.toNat_natCast n]
  exact pickIdx_all_lt _ _ (uniformIndices_lt _ _ h2 hlt.le)

theorem rawStrategy_uniform_ge (slices : List SliceMetadata) (n : Nat) (r : Int × Int)
    (hge : slices.length ≤ n) :
    rawStrategy slices ⟨r, .uniform, some (n : Int)⟩ = some slices := by
  have hmin : min ((n : Int)) ((slices.length : Int)) = (slices.length : Int) :=
    min_eq_right (by exact_mod_cast hge)
  simp only [rawStrategy, Option.getD_some, hmin]
  rw [if_pos (by omega)]

-- ---------------------------------------------------------------------------
-- Claim C3: uniform sampling correctness
-- ---------------------------------------------------------------------------

/-- Claim C3, counterexample: the claim quantifies over every parameter n with
1 ≤ n ≤ m and asserts that exactly n slices are returned with the first and
last input slices included.  At n = 1 over two slices the uniform position
formula divides zero by zero: in the source Math.round yields NaN, the array
access yields undefined, and the subsequent property access throws, so no
list at all is returned (embedded as none). -/
theorem applyStrategy_uniform_param_one_counterexample :
    applyStrategy [mkSlice 0, mkSlice 1] ⟨(0, 1), .uniform, some 1⟩ 2 = none := by
  rfl

/-- Claim C3 (amended): for every ordered slice list of length m and uniform
parameter n with 2 ≤ n ≤ m and n within the hard cap of 20, applyStrategy
returns exactly the n slices at the strictly increasing input positions
round (i (m-1) / (n-1)), whose first position is 0 and last is m-1; and when
n ≥ m (with m within the hard cap) it returns the whole input unchanged. -/
theorem applyStrategy_uniform_correct (slices : List SliceMetadata) (n : Nat)
    (r : Int × Int) (axisIdx : Nat) :
    (2 ≤ n → n ≤ slices.length → n ≤ 20 →
      applyStrategy slices ⟨r, .uniform, some (n : Int)⟩ axisIdx
          = some ((uniformIndices slices.length n).map
              (fun i => (slices.getD i default).toSelected axisIdx)) ∧
        (uniformIndices slices.length n).length = n ∧
        List.Chain' (· < ·) (uniformIndices slices.length n) ∧
        (uniformIndices slices.length n).head? = some 0 ∧
        (uniformIndices slices.length n).getLast? = some (slices.length - 1) ∧
        (∀ x ∈ uniformIndices slices.length n, x < slices.length)) ∧
    (slices.length ≤ n → slices.length ≤ 20 →
      applyStrategy slices ⟨r, .uniform, some (n : Int)⟩ axisIdx
          = some (slices.map (SliceMetadata.toSelected · axisIdx))) := by
  constructor
  · intro h2 hnm h20
    refine ⟨?_, uniformIndices_length _ _, uniformIndices_chain _ _ h2 hnm,
      uniformIndices_head _ _ h2, uniformIndices_getLast _ _ h2,
      uniformIndices_lt _ _ h2 hnm⟩
    rcases Nat.lt_or_ge n slices.length with hlt | hge
    · have hraw := rawStrategy_uniform_lt slices n r h2 hlt
      have heval := applyStrategy_eval slices ⟨r, .uniform, some (n : Int)⟩ axisIdx
        MAX_SLICES ((uniformIndices slices.length n).map (fun i => slices.getD i default))
        hraw
        (by rw [List.length_map, uniformIndices_length]; unfold MAX_SLICES; omega)
      rw [heval, List.map_map]
      rfl
    · have heq : n = slices.length := by omega
      have hraw := rawStrategy_uniform_ge slices n r (by omega)
      have heval := applyStrategy_eval slices ⟨r, .uniform, some (n : Int)⟩ axisIdx
        MAX_SLICES slices hraw (by unfold MAX_SLICES; omega)
      rw [heval, heq]
      refine congrArg some ?_
      have hIdx : uniformIndices slices.length slices.length
          = List.range slices.length := by
        unfold uniformIndices
        rw [List.map_congr_left (fun i _ =>
          jsRoundDiv_mul_self i (slices.length - 1) (by omega))]
        exact List.map_id _
      rw [hIdx, show (fun i => (slices.getD i default).toSelected axisIdx)
          = (SliceMetadata.toSelected · axisIdx) ∘ (fun i => slices.getD i default)
          from rfl]
      rw [← List.map_map, map_getD_range]
  · intro hmn h20
    have hraw := rawStrategy_uniform_ge slices n r hmn
    exact applyStrategy_eval slices ⟨r, .uniform, some (n : Int)⟩ axisIdx
      MAX_SLICES slices hraw (by unfold MAX_SLICES; omega)

def slices5 : List SliceMetadata :=
  [mkSlice 0, mkSlice 1, mkSlice 2, mkSlice 3, mkSlice 4]

def slices2 : List SliceMetadata := [mkSlice 0, mkSlice 1]

/-- Witness for the amended C3 theorem: uniform 3 of 5 picks positions
0, 2, 4; uniform 5 of 2 is the identity. -/
theorem applyStrategy_uniform_correct_witness :
    (applyStrategy slices5 ⟨(0, 4), .uniform, some ((3 : Nat) : Int)⟩ 2
        = some ((uniformIndices slices5.length 3).map
            (fun i => (slices5.getD i default).toSelected 2)) ∧
      (uniformIndices slices5.length 3).length = 3 ∧
      List.Chain' (· < ·) (uniformIndices slices5.length 3) ∧
      (uniformIndices slices5.length 3).head? = some 0 ∧
      (uniformIndices slices5.length 3).getLast? = some (slices5.length - 1)) ∧
    applyStrategy slices2 ⟨(0, 1), .uniform, some ((5 : Nat) : Int)⟩ 2
        = some (slices2.map (SliceMetadata.toSelected · 2)) :=
  ⟨(fun h => ⟨h.1, h.2.1, h.2.2.1, h.2.2.2.1, h.2.2.2.2.1⟩)
      ((applyStrategy_uniform_correct slices5 3 (0, 4) 2).1
        (by decide) (by decide) (by decide)),
    (applyStrategy_uniform_correct slices2 5 (0, 1) 2).2 (by decide) (by decide)⟩

-- ---------------------------------------------------------------------------
-- Claim C4: hard cap safety net
-- ---------------------------------------------------------------------------

theorem applyStrategy_length_le (slices : List SliceMetadata) (params : SamplingParams)
    (axisIdx : Nat) (out : List SelectedSlice)
    (h : applyStrategy slices params axisIdx = some out) : out.length ≤ 20 := by
  unfold applyStrategy at h
  cases hraw : rawStrategy slices params with
  | none => rw [hraw] at h; exact absurd h (by simp)
  | some sel' =>
    rw [hraw] at h
    have h' : (hardCap sel' MAX_SLICES).bind
        (fun capped => some (capped.map (SliceMetadata.toSelected · axisIdx)))
          = some out := h
    cases hcap : hardCap sel' MAX_SLICES with
    | none => rw [hcap] at h'; exact absurd h' (by simp)
    | some capped =>
      rw [hcap] at h'
      have hout : out = capped.map (SliceMetadata.toSelected · axisIdx) := by
        injection h' with h'
        exact h'.symm
      subst hout
      rw [List.length_map]
      unfold hardCap at hcap
      split at hcap
      · rw [if_neg (by unfold MAX_SLICES; omega)] at hcap
        have := pickIdx_length _ _ _ hcap
        rw [uniformIndices_length] at this
        unfold MAX_SLICES at this
        omega
      · injection hcap with hcap
        subst hcap
        rename_i hlen
        unfold MAX_SLICES at hlen
        omega

/-- Claim C4: whenever applyStrategy returns a list it has at most 20
elements, and when the declared strategy's own result exceeded 20 slices the
returned list is exactly the uniform re-sample of it down to 20 positions;
likewise every list returned by selectSlicesForSelection has at most 20
elements. -/
theorem applyStrategy_hard_cap (slices : List SliceMetadata) (params : SamplingParams)
    (axisIdx : Nat) (out : List SelectedSlice) (metadata : StudyMetadata)
    (selection : SeriesSelection) (out2 : List SelectedSlice)
    (h1 : applyStrategy slices params axisIdx = some out)
    (h2 : selectSlicesForSelection metadata selection = some out2) :
    out.length ≤ 20 ∧ out2.length ≤ 20 ∧
      ∀ sel', rawStrategy slices params = some sel' → 20 < sel'.length →
        out = ((uniformIndices sel'.length 20).map (fun i => sel'.getD i default)).map
            (SliceMetadata.toSelected · axisIdx) ∧ out.length = 20 := by
  refine ⟨applyStrategy_length_le _ _ _ _ h1, ?_, ?_⟩
  · unfold selectSlicesForSelection at h2
    cases hfind : metadata.series.find?
        (fun s => toString s.seriesNumber == selection.seriesNumber) with
    | none =>
      rw [hfind] at h2
      injection h2 with h2
      subst h2
      simp
    | some series =>
      rw [hfind] at h2
      unfold selectFromSeries at h2
      exact applyStrategy_length_le _ _ _ _ h2
  · intro sel' hraw hover
    unfold applyStrategy at h1
    rw [hraw] at h1
    have h1' : (hardCap sel' MAX_SLICES).bind
        (fun capped => some (capped.map (SliceMetadata.toSelected · axisIdx)))
          = some out := h1
    have hpick : pickIdx sel' (uniformIndices sel'.length 20)
        = some ((uniformIndices sel'.length 20).map (fun i => sel'.getD i default)) :=
      pickIdx_all_lt _ _ (uniformIndices_lt _ _ (by omega) (by omega))
    have hcap : hardCap sel' MAX_SLICES
        = some ((uniformIndices sel'.length 20).map (fun i => sel'.getD i default)) := by
      unfold hardCap
      rw [if_pos (by unfold MAX_SLICES; omega), if_neg (by unfold MAX_SLICES; omega)]
      exact hpick
    rw [hcap] at h1'
    injection h1' with h1'
    constructor
    · exact h1'.symm
    · rw [← h1', List.length_map, List.length_map, uniformIndices_length]

def c4OverSlices : List SliceMetadata := (List.range 30).map (fun i => mkSlice i)

def c4Study : StudyMetadata :=
  mkStudy [{ mkSeries 3 0 29 with slices := c4OverSlices }]

/-- Witness for the C4 theorem: an all-strategy selection over 30 slices is
re-sampled by the hard cap down to exactly 20, both through applyStrategy and
through selectSlicesForSelection. -/
theorem applyStrategy_hard_cap_witness :
    ((applyStrategy c4OverSlices ⟨(0, 29), .all, none⟩ 2).getD []).length ≤ 20 ∧
      ((selectSlicesForSelection c4Study (mkSel "3" .primary 0 29 .all none)).getD
          []).length ≤ 20 ∧
      ∀ sel', rawStrategy c4OverSlices ⟨(0, 29), .all, none⟩ = some sel' →
        20 < sel'.length →
        (applyStrategy c4OverSlices ⟨(0, 29), .all, none⟩ 2).getD []
            = ((uniformIndices sel'.length 20).map (fun i => sel'.getD i default)).map
              (SliceMetadata.toSelected · 2) ∧
          ((applyStrategy c4OverSlices ⟨(0, 29), .all, none⟩ 2).getD []).length = 20 :=
  applyStrategy_hard_cap c4OverSlices ⟨(0, 29), .all, none⟩ 2 _ c4Study
    (mkSel "3" .primary 0 29 .all none) _ (by rfl) (by rfl)

-- ---------------------------------------------------------------------------
-- Provider response parsing (src/src/llm/LLMServiceFactory.ts)
-- ---------------------------------------------------------------------------

/-- JSON values as produced by JSON.parse on the extracted provider text. -/
inductive JValue where
  | null
  | bool (b : Bool)
  | num (n : Int)
  | str (s : String)
  | arr (xs : List JValue)
  | obj (fields : List (String × JValue))
deriving Repr, Inhabited

/-- Property access json.key: undefined (none) on missing keys and on
non-object values. -/
def JValue.getProp : JValue → String → Option JValue
  | .obj fields, k => (fields.find? (fun p => p.1 == k)).map (·.2)
  | _, _ => none

/-- JavaScript falsiness of a possibly-undefined value: undefined, null,
false, 0 and the empty string are falsy. -/
def jsFalsy : Option JValue → Bool
  | none => true
  | some .null => true
  | some (.bool b) => !b
  | some (.num n) => n == 0
  | some (.str s) => s == ""
  | some (.arr _) => false
  | some (.obj _) => false

/-- Number(v) coercion, restricted to the integer-valued cases the pipeline
feeds it; a string parse and the NaN results of non-numeric input are elided
(no claim depends on those values). -/
def jsNumber : JValue → Int
  | .num n => n
  | .bool true => 1
  | _ => 0

/-- String(v) coercion. -/
def jsString : JValue → String
  | .str s => s
  | .num n => toString n
  | .bool true => "true"
  | .bool false => "false"
  | .null => "null"
  | .arr _ => ""
  | .obj _ => ""

/-- Array index access (json.sliceRange as number[])[i]. -/
def jsIndex (v : Option JValue) (i : Nat) : JValue :=
  match v with
  | some (.arr xs) => xs.getD i .null
  | _ => .null

/-- The typed plan shape constructed by parseSelectionPlan (the legacy
single-series wire shape of this parser). -/
structure ParsedPlan where
  targetSeries : String
  sliceRange : Int × Int
  samplingStrategy : String
  samplingParam : Option Int
  windowCenter : Int
  windowWidth : Int
  reasoning : String
deriving DecidableEq, Repr, Inhabited

/-- Parse the provider response into a SelectionPlan.  The input is the
outcome of JSON.parse over the extracted text: none when that parse threw.
An unparseable response, or one whose targetSeries or sliceRange is absent
(or falsy), is a hard error; no defaults are substituted for them. -/
def parseSelectionPlan (parsed : Option JValue) : Except String ParsedPlan :=
  match parsed with
  | none =>
    .error "The LLM did not return valid JSON. This can happen with smaller models. Try a more specific clinical prompt or switch to Claude."
  | some json =>
    if jsFalsy (json.getProp "targetSeries") || jsFalsy (json.getProp "sliceRange") then
      .error "The LLM response is missing required fields (targetSeries, sliceRange). Try a more specific clinical prompt or a larger model."
    else
      .ok
        { targetSeries := jsString ((json.getProp "targetSeries").getD .null),
          sliceRange := (jsNumber (jsIndex (json.getProp "sliceRange") 0),
            jsNumber (jsIndex (json.getProp "sliceRange") 1)),
          samplingStrategy :=
            match json.getProp "samplingStrategy" with
            | none => "uniform"
            | some .null => "uniform"
            | some v => jsString v,
          samplingParam :=
            match json.getProp "samplingParam" with
            | none => none
            | some .null => none
            | some v => some (jsNumber v),
          windowCenter := jsNumber ((json.getProp "windowCenter").getD .null),
          windowWidth := jsNumber ((json.getProp "windowWidth").getD .null),
          reasoning := jsString ((json.getProp "reasoning").getD (.str "")) }

-- ---------------------------------------------------------------------------
-- Chat pipeline state (src/src/llm/useLLMChat.ts)
-- ---------------------------------------------------------------------------

inductive ChatStatus where
  | idle | planning | awaitingConfirmation | exporting | analyzing | followingUp | error
deriving DecidableEq, Repr, Inhabited

inductive MessageRole where
  | user | assistant
deriving DecidableEq, Repr, Inhabited

structure ChatMessage where
  id : String
  role : MessageRole
  content : String
  timestamp : Int
deriving DecidableEq, Repr, Inhabited

inductive StepStatus where
  | pending | active | done | error
deriving DecidableEq, Repr, Inhabited

structure PipelineStep where
  id : String
  label : String
  status : StepStatus
  detail : Option String
  durationMs : Option Int
deriving DecidableEq, Repr, Inhabited

structure SliceMapping where
  imageIndex : Nat
  instanceNumber : Int
  imageId : String
  zPosition : Int
  label : String
  seriesNumber : String
deriving DecidableEq, Repr, Inhabited

structure PipelineState where
  steps : List PipelineStep
  plan : Option SelectionPlan
  sliceCount : Int
  totalSlices : Int
  exportedSizes : List Nat
  sliceMappings : List SliceMapping
deriving DecidableEq, Repr, Inhabited

/-- The React state owned by useLLMChat, together with the abort ref. -/
structure ChatState where
  messages : List ChatMessage
  status : ChatStatus
  error : Option String
  currentPlan : Option SelectionPlan
  pipeline : Option PipelineState
  abortFlag : Bool
deriving DecidableEq, Repr, Inhabited

/-- cancelPlan: set the abort flag, revert to idle, discard the plan and the
pipeline state, and remove the last message when it is the user hint that
triggered the run. -/
def cancelPlan (st : ChatState) : ChatState :=
  { st with
    abortFlag := true,
    status := .idle,
    currentPlan := none,
    pipeline := none,
    messages :=
      match st.messages.getLast? with
      | none => st.messages
      | some last => if last.role = .user then st.messages.dropLast else st.messages }

/-- The catch block of startAnalysis: when the run was not aborted, record
the error message and enter the error status. -/
def startAnalysisCatch (st : ChatState) (msg : String) : ChatState :=
  if st.abortFlag then st
  else { st with error := some msg, status := ChatStatus.error }

-- ---------------------------------------------------------------------------
-- Claim C8: malformed provider response
-- ---------------------------------------------------------------------------

/-- Claim C8: for every provider response whose extracted JSON is unparseable
or lacks the series target or the slice range, parseSelectionPlan produces a
hard error rather than a defaulted plan, and the planning path's catch block
then puts the non-aborted run into the error status with that message. -/
theorem parseSelectionPlan_malformed (parsed : Option JValue) (st : ChatState)
    (h : parsed = none ∨ ∃ j, parsed = some j ∧
        (j.getProp "targetSeries" = none ∨ j.getProp "sliceRange" = none))
    (habort : st.abortFlag = false) :
    ∃ msg, parseSelectionPlan parsed = .error msg ∧
      (startAnalysisCatch st msg).status = ChatStatus.error ∧
      (startAnalysisCatch st msg).error = some msg := by
  have hcatch : ∀ msg, (startAnalysisCatch st msg).status = ChatStatus.error ∧
      (startAnalysisCatch st msg).error = some msg := by
    intro msg
    unfold startAnalysisCatch
    rw [habort]
    exact ⟨rfl, rfl⟩
  rcases h with rfl | ⟨j, rfl, hmiss⟩
  · exact ⟨_, rfl, hcatch _⟩
  · have hcond : (jsFalsy (j.getProp "targetSeries")
        || jsFalsy (j.getProp "sliceRange")) = true := by
      rcases hmiss with hm | hm <;> rw [hm] <;> simp [jsFalsy]
    have herr : parseSelectionPlan (some j)
        = .error "The LLM response is missing required fields (targetSeries, sliceRange). Try a more specific clinical prompt or a larger model." := by
      simp only [parseSelectionPlan, hcond, if_true]
    exact ⟨_, herr, hcatch _⟩

def c8Response : JValue :=
  JValue.obj [("targetSeries", .str "3"), ("reasoning", .str "scout only")]

def c8State : ChatState :=
  { messages := [], status := .planning, error := none, currentPlan := none,
    pipeline := none, abortFlag := false }

/-- Witness for the C8 theorem: a response missing sliceRange parses to an
error and the planning path ends in the error status. -/
theorem parseSelectionPlan_malformed_witness :
    ∃ msg, parseSelectionPlan (some c8Response) = .error msg ∧
      (startAnalysisCatch c8State msg).status = ChatStatus.error ∧
      (startAnalysisCatch c8State msg).error = some msg :=
  parseSelectionPlan_malformed (some c8Response) c8State
    (Or.inr ⟨c8Response, rfl, Or.inr (by rfl)⟩) (by rfl)

-- ---------------------------------------------------------------------------
-- The confirmPlan pipeline run (src/src/llm/useLLMChat.ts, confirmPlan).
-- External collaborators are oracles: exports gives the result of the
-- awaited exportSlicesToJpeg call with a given ordinal, cancels tells
-- whether the user invoked cancelPlan while the run was suspended at that
-- await (the only moments the single-threaded event loop can run it), and
-- analysisText is the analyzeSlices response.  Step detail strings and the
-- wall clock are abbreviated; SliceMapping labels are built exactly as in
-- the source.
-- ---------------------------------------------------------------------------

/-- One element of an exportSlicesToJpeg result; the blob is abstracted to
its byte size. -/
structure ExportResult where
  blobSize : Nat
  instanceNumber : Int
  zPosition : Int
deriving DecidableEq, Repr, Inhabited

/-- Partial update of a pipeline step, as the source's updateStep spreads. -/
structure StepUpdate where
  status : Option StepStatus := none
  detail : Option String := none
  durationMs : Option Int := none
deriving Repr, Inhabited

def applyStepUpdate (s : PipelineStep) (u : StepUpdate) : PipelineStep :=
  { s with
    status := u.status.getD s.status,
    detail := match u.detail with | some d => some d | none => s.detail,
    durationMs := match u.durationMs with | some d => some d | none => s.durationMs }

def updateStep (steps : List PipelineStep) (id : String) (u : StepUpdate) :
    List PipelineStep :=
  steps.map (fun s => if s.id == id then applyStepUpdate s u else s)

/-- setPipeline (p) => p && f p : a null pipeline stays null. -/
def withPipeline (st : ChatState) (f : PipelineState → PipelineState) : ChatState :=
  { st with pipeline := st.pipeline.map f }

/-- setPipeline call that only updates one step of the step list. -/
def markStep (st : ChatState) (id : String) (u : StepUpdate) : ChatState :=
  withPipeline st (fun p => { p with steps := updateStep p.steps id u })

/-- setPipeline call of the loop start: record the plan and mark the plan
step done. -/
def recordPlan (st : ChatState) (adjustedPlan : SelectionPlan) : ChatState :=
  withPipeline st (fun p =>
    { p with
      plan := some adjustedPlan,
      steps := updateStep p.steps "plan"
          { status := some .done, detail := some "Series", durationMs := some 0 } })

/-- setPipeline call after a successful loop: record the slice counts and
mark the select step done. -/
def recordCounts (st : ChatState) (totalSelectedCount grandTotalSlices : Int) :
    ChatState :=
  withPipeline st (fun p =>
    { p with
      sliceCount := totalSelectedCount,
      totalSlices := grandTotalSlices,
      steps := updateStep p.steps "select"
          { status := some .done, detail := some "Selected" } })

/-- setPipeline call recording the exported sizes and slice mappings and
marking the export step done. -/
def recordExported (st : ChatState) (allBlobs : List Nat)
    (allMappings : List SliceMapping) : ChatState :=
  withPipeline st (fun p =>
    { p with
      exportedSizes := allBlobs,
      sliceMappings := allMappings,
      steps := updateStep p.steps "export"
          { status := some .done, detail := some "Exported", durationMs := some 0 } })

/-- Axis letter for the mapping label: x for sagittal, y for coronal,
z otherwise. -/
def axisLetter (series : Option SeriesMetadata) : String :=
  match series with
  | some s =>
    if s.anatomicalPlane = .sagittal then "x"
    else if s.anatomicalPlane = .coronal then "y" else "z"
  | none => "z"

/-- The label of one exported slice, exactly as interpolated in the source
(with the integer z coordinate standing for zPosition.toFixed 0). -/
def mkSliceLabel (seriesDesc : String) (instanceNumber : Int)
    (totalSlicesInSeries : Nat) (axis : String) (zPosition : Int) : String :=
  seriesDesc ++ " — Slice " ++ toString instanceNumber ++ "/"
    ++ toString totalSlicesInSeries ++ " (" ++ axis ++ "="
    ++ toString zPosition ++ "mm)"

/-- Outcome of the per-selection export loop: an exception propagating to the
catch block, an early return after a positive abort check, or normal
completion carrying the accumulators. -/
inductive LoopOutcome where
  | thrown (st : ChatState)
  | aborted (st : ChatState)
  | finished (st : ChatState) (awaitIdx : Nat) (allMappings : List SliceMapping)
      (allBlobs : List Nat) (totalSelectedCount grandTotalSlices : Int)

/-- Accumulate the mappings of one export result list, as the inner for loop
over exported does. -/
def accumulateExported (exported : List ExportResult)
    (selectedSlices : List SelectedSlice) (seriesDesc : String)
    (totalSlicesInSeries : Nat) (axis : String) (selSeriesNumber : String)
    (allBlobs : List Nat) (allMappings : List SliceMapping) :
    List Nat × List SliceMapping :=
  exported.foldl
    (fun acc e =>
      let globalIdx := acc.1.length + 1
      (acc.1 ++ [e.blobSize],
        acc.2 ++ [{ imageIndex := globalIdx,
                    instanceNumber := e.instanceNumber,
                    imageId := (((selectedSlices.find?
                        (fun s => s.instanceNumber == e.instanceNumber)).map
                          (·.imageId)).getD ""),
                    zPosition := e.zPosition,
                    label := mkSliceLabel seriesDesc e.instanceNumber
                        totalSlicesInSeries axis e.zPosition,
                    seriesNumber := selSeriesNumber }]))
    (allBlobs, allMappings)

/-- The for loop of confirmPlan over the plan's selections. -/
def exportLoop (metadata : StudyMetadata) (exports : Nat → List ExportResult)
    (cancels : Nat → Bool) :
    List SeriesSelection → ChatState → Nat → List SliceMapping → List Nat →
      Int → Int → LoopOutcome
  | [], st, awaitIdx, allMappings, allBlobs, totalSelectedCount, grandTotalSlices =>
    .finished st awaitIdx allMappings allBlobs totalSelectedCount grandTotalSlices
  | sel :: rest, st, awaitIdx, allMappings, allBlobs, totalSelectedCount,
      grandTotalSlices =>
    match selectSlicesForSelection metadata sel with
    | none => .thrown st
    | some selectedSlices =>
      if selectedSlices.length = 0 then
        exportLoop metadata exports cancels rest st awaitIdx allMappings allBlobs
          totalSelectedCount grandTotalSlices
      else
        let series := metadata.series.find?
          (fun s => toString s.seriesNumber == sel.seriesNumber)
        let totalSlicesInSeries : Nat :=
          match series with
          | some s => s.slices.length
          | none => selectedSlices.length
        let seriesDesc :=
          match series with
          | some s =>
            if s.seriesDescription == "" then "Series #" ++ sel.seriesNumber
            else s.seriesDescription
          | none => "Series #" ++ sel.seriesNumber
        let axis := axisLetter series
        let totalSelectedCount := totalSelectedCount + selectedSlices.length
        let grandTotalSlices := grandTotalSlices + (totalSlicesInSeries : Int)
        let st := markStep st "export" { status := some .active, detail := some "Rendering" }
        let exported := exports awaitIdx
        let st := if cancels awaitIdx then cancelPlan st else st
        if st.abortFlag then .aborted st
        else
          let acc := accumulateExported exported selectedSlices seriesDesc
            totalSlicesInSeries axis sel.seriesNumber allBlobs allMappings
          exportLoop metadata exports cancels rest st (awaitIdx + 1) acc.2 acc.1
            totalSelectedCount grandTotalSlices

structure RunResult where
  state : ChatState
  analysisInvoked : Bool

/-- Entry of confirmPlan before the export loop: reset the abort flag and
the error, record the adjusted plan, mark the select step active, and enter
the exporting status. -/
def confirmEntry (st₀ : ChatState) (adjustedPlan : SelectionPlan) : ChatState :=
  let st := { st₀ with
                abortFlag := false, error := none,
                currentPlan := some adjustedPlan }
  let st := recordPlan st adjustedPlan
  let st := markStep st "select" { status := some .active, detail := some "Selecting" }
  { st with status := .exporting }

/-- The confirmPlan run over a confirmed plan. -/
def confirmRun (metadata : StudyMetadata) (adjustedPlan : SelectionPlan)
    (exports : Nat → List ExportResult) (cancels : Nat → Bool)
    (analysisText : String) (st₀ : ChatState) : RunResult :=
  match exportLoop metadata exports cancels adjustedPlan.selections
      (confirmEntry st₀ adjustedPlan) 0 [] [] 0 0 with
  | .thrown st => { state := startAnalysisCatch st "TypeError", analysisInvoked := false }
  | .aborted st => { state := st, analysisInvoked := false }
  | .finished st awaitIdx allMappings allBlobs totalSelectedCount grandTotalSlices =>
    if allBlobs.length = 0 then
      let st := markStep st "select" { status := some .error, detail := some "No slices matched" }
      { state := startAnalysisCatch st
          "No slices matched the selection plan. Try a different prompt.",
        analysisInvoked := false }
    else
      let st := recordCounts st totalSelectedCount grandTotalSlices
      let st := recordExported st allBlobs allMappings
      let st := { st with status := .analyzing }
      let st := markStep st "analyze" { status := some .active, detail := some "Sending" }
      let st := if cancels awaitIdx then cancelPlan st else st
      if st.abortFlag then { state := st, analysisInvoked := true }
      else
        let st := markStep st "analyze"
          { status := some .done, detail := some "Response received", durationMs := some 0 }
        let st := { st with
          messages := st.messages ++
            [{ id := "assistant", role := .assistant, content := analysisText,
               timestamp := 0 }],
          status := .idle }
        { state := st, analysisInvoked := true }

/-- Number of export awaits the loop performs when never cancelled: one per
selection with a nonempty slice selection, stopping at a selection whose
slice selection throws. -/
def exportAwaitCount (metadata : StudyMetadata) : List SeriesSelection → Nat
  | [] => 0
  | sel :: rest =>
    match selectSlicesForSelection metadata sel with
    | none => 0
    | some [] => exportAwaitCount metadata rest
    | some (_ :: _) => 1 + exportAwaitCount metadata rest

-- ---------------------------------------------------------------------------
-- Claim C5: cancellation during the export phase
-- ---------------------------------------------------------------------------

theorem cancelPlan_fields (st : ChatState) :
    (cancelPlan st).status = .idle ∧ (cancelPlan st).currentPlan = none ∧
      (cancelPlan st).pipeline = none ∧ (cancelPlan st).abortFlag = true :=
  ⟨rfl, rfl, rfl, rfl⟩

theorem cancelPlan_messages (st : ChatState) (m : ChatMessage)
    (h : st.messages.getLast? = some m) (hu : m.role = .user) :
    (cancelPlan st).messages = st.messages.dropLast := by
  simp only [cancelPlan, h, hu, if_pos]

theorem exportLoop_cancelled (metadata : StudyMetadata)
    (exports : Nat → List ExportResult) (cancels : Nat → Bool) (i : Nat)
    (hc : cancels i = true) (hbefore : ∀ j, j < i → cancels j = false) :
    ∀ (sels : List SeriesSelection) (st : ChatState) (a : Nat)
      (ms : List SliceMapping) (bl : List Nat) (t g : Int),
      st.abortFlag = false → a ≤ i → i - a < exportAwaitCount metadata sels →
      ∃ stmid, exportLoop metadata exports cancels sels st a ms bl t g
          = .aborted (cancelPlan stmid) ∧ stmid.messages = st.messages := by
  intro sels
  induction sels with
  | nil =>
    intro st a ms bl t g _ _ hlt
    simp [exportAwaitCount] at hlt
  | cons sel rest ih =>
    intro st a ms bl t g habort hai hlt
    unfold exportLoop
    cases hsel : selectSlicesForSelection metadata sel with
    | none =>
      have h0 : exportAwaitCount metadata (sel :: rest) = 0 := by
        unfold exportAwaitCount
        rw [hsel]
      rw [h0] at hlt
      omega
    | some selectedSlices =>
      cases selectedSlices with
      | nil =>
        have h0 : exportAwaitCount metadata (sel :: rest)
            = exportAwaitCount metadata rest := by
          conv_lhs => unfold exportAwaitCount
          rw [hsel]
        rw [h0] at hlt
        simp only [hsel, List.length_nil, if_pos]
        exact ih st a ms bl t g habort hai hlt
      | cons x xs =>
        have h0 : exportAwaitCount metadata (sel :: rest)
            = 1 + exportAwaitCount metadata rest := by
          conv_lhs => unfold exportAwaitCount
          rw [hsel]
        rw [h0] at hlt
        simp only [hsel, List.length_cons]
        rw [if_neg (by omega)]
        by_cases hca : a = i
        · subst hca
          refine ⟨markStep st "export"
            { status := some .active, detail := some "Rendering" }, ?_, rfl⟩
          simp only [hc, if_true]
          rfl
        · have ha : a < i := lt_of_le_of_ne hai hca
          have hfalse := hbefore a ha
          have habort1 : (markStep st "export"
              { status := some .active, detail := some "Rendering" }).abortFlag
                = false := habort
          simp only [hfalse, Bool.false_eq_true, if_false, habort1]
          obtain ⟨stmid, heq, hmsg⟩ := ih
            (markStep st "export" { status := some .active, detail := some "Rendering" })
            (a + 1) _ _ _ _ habort1 (by omega) (by omega)
          exact ⟨stmid, heq, hmsg⟩

/-- Claim C5: if cancelPlan is invoked while the confirmed run is suspended
at an export await (the only points of the single-threaded run where it can
take effect), the run adds no SliceMapping to the pipeline state (the
pipeline is discarded entirely), never invokes the analysis call, reverts
the status to idle, discards the current plan, sets the abort flag, and
removes the triggering user message from the history. -/
theorem confirmPlan_cancel_during_export (metadata : StudyMetadata)
    (adjustedPlan : SelectionPlan) (exports : Nat → List ExportResult)
    (cancels : Nat → Bool) (analysisText : String) (st₀ : ChatState)
    (i : Nat) (m : ChatMessage)
    (hlast : st₀.messages.getLast? = some m) (hu : m.role = .user)
    (hc : cancels i = true) (hbefore : ∀ j, j < i → cancels j = false)
    (hreach : i < exportAwaitCount metadata adjustedPlan.selections) :
    (confirmRun metadata adjustedPlan exports cancels analysisText st₀).analysisInvoked
        = false ∧
      (confirmRun metadata adjustedPlan exports cancels analysisText st₀).state.status
        = .idle ∧
      (confirmRun metadata adjustedPlan exports cancels analysisText st₀).state.currentPlan
        = none ∧
      (confirmRun metadata adjustedPlan exports cancels analysisText st₀).state.pipeline
        = none ∧
      (confirmRun metadata adjustedPlan exports cancels analysisText st₀).state.abortFlag
        = true ∧
      (confirmRun metadata adjustedPlan exports cancels analysisText st₀).state.messages
        = st₀.messages.dropLast := by
  obtain ⟨stmid, heq, hmsg⟩ := exportLoop_cancelled metadata exports cancels i hc
    hbefore adjustedPlan.selections (confirmEntry st₀ adjustedPlan) 0 [] [] 0 0
    rfl (Nat.zero_le i) (by omega)
  have hentry : (confirmEntry st₀ adjustedPlan).messages = st₀.messages := rfl
  have hrun : confirmRun metadata adjustedPlan exports cancels analysisText st₀
      = { state := cancelPlan stmid, analysisInvoked := false } := by
    unfold confirmRun
    rw [heq]
  rw [hrun]
  have hlast2 : stmid.messages.getLast? = some m := by
    rw [hmsg, hentry]
    exact hlast
  refine ⟨rfl, rfl, rfl, rfl, rfl, ?_⟩
  have := cancelPlan_messages stmid m hlast2 hu
  rw [this, hmsg, hentry]

def c5Slices : List SliceMetadata := [mkSlice 1, mkSlice 2]

def c5Study : StudyMetadata := mkStudy [{ mkSeries 1 1 2 with slices := c5Slices }]

def c5Plan : SelectionPlan := mkPlan [mkSel "1" .primary 1 2 .all none]

def c5UserMsg : ChatMessage :=
  { id := "u1", role := .user, content := "evaluate", timestamp := 0 }

def c5State : ChatState :=
  { messages := [c5UserMsg], status := .awaitingConfirmation, error := none,
    currentPlan := some c5Plan,
    pipeline := some
      { steps := [], plan := some c5Plan, sliceCount := 0,
        totalSlices := 0, exportedSizes := [], sliceMappings := [] },
    abortFlag := false }

def c5Exports : Nat → List ExportResult := fun _ =>
  [{ blobSize := 100, instanceNumber := 1, zPosition := 1 },
   { blobSize := 100, instanceNumber := 2, zPosition := 2 }]

/-- Witness for the C5 theorem: cancel during the first (and only) export
await of a one-selection run. -/
theorem confirmPlan_cancel_during_export_witness :
    (confirmRun c5Study c5Plan c5Exports (fun j => j == 0) "text" c5State).analysisInvoked
        = false ∧
      (confirmRun c5Study c5Plan c5Exports (fun j => j == 0) "text" c5State).state.status
        = .idle ∧
      (confirmRun c5Study c5Plan c5Exports (fun j => j == 0) "text" c5State).state.currentPlan
        = none ∧
      (confirmRun c5Study c5Plan c5Exports (fun j => j == 0) "text" c5State).state.pipeline
        = none ∧
      (confirmRun c5Study c5Plan c5Exports (fun j => j == 0) "text" c5State).state.abortFlag
        = true ∧
      (confirmRun c5Study c5Plan c5Exports (fun j => j == 0) "text" c5State).state.messages
        = c5State.messages.dropLast :=
  confirmPlan_cancel_during_export c5Study c5Plan c5Exports (fun j => j == 0) "text"
    c5State 0 c5UserMsg (by decide) (by rfl) (by rfl) (by omega) (by decide)

-- ---------------------------------------------------------------------------
-- Slice reference grammar (src/src/ui/ChatSidebar.tsx).  The two regular
-- expressions SLICE_REF_PATTERN and IMAGE_REF_PATTERN are embedded as a
-- character-level scanner with the same leftmost, greedy, backtracking
-- semantics, specialized to these patterns: inside them every backtracking
-- path that shortens a digit run dies on the trailing word boundary (a digit
-- always follows), so the scanner only needs the group-dropping backtracks.
-- ---------------------------------------------------------------------------

def isWordChar (c : Char) : Bool := c.isAlphanum || c = '_'

/-- Whitespace as it occurs in labels and analysis texts. -/
def isSpaceChar (c : Char) : Bool := c = ' ' ∨ c = '\t' ∨ c = '\n' ∨ c = '\r'

/-- Consume a maximal digit run: value, digit count, rest. -/
def digitsAux : List Char → Nat → Nat → Nat × Nat × List Char
  | [], v, n => (v, n, [])
  | c :: cs, v, n =>
    if c.isDigit then digitsAux cs (v * 10 + (c.toNat - 48)) (n + 1)
    else (v, n, c :: cs)

def takeDigits (cs : List Char) : Option (Nat × Nat × List Char) :=
  match digitsAux cs 0 0 with
  | (_, 0, _) => none
  | (v, n, rest) => some (v, n, rest)

/-- Consume maximal whitespace: count, rest. -/
def wsAux : List Char → Nat → Nat × List Char
  | [], n => (n, [])
  | c :: cs, n => if isSpaceChar c then wsAux cs (n + 1) else (n, c :: cs)

def takeWs1 (cs : List Char) : Option (Nat × List Char) :=
  match wsAux cs 0 with
  | (0, _) => none
  | (n, rest) => some (n, rest)

/-- Trailing word boundary after a digit: holds at end of input or before a
non-word character. -/
def boundaryOk : List Char → Bool
  | [] => true
  | c :: _ => !isWordChar c

/-- The optional range group: whitespace, hyphen or en dash, whitespace,
digits.  Returns the second number, the consumed length and the rest. -/
def tryRange (cs : List Char) : Option (Nat × Nat × List Char) :=
  let w1 := wsAux cs 0
  match w1.2 with
  | c :: cs2 =>
    if c = '-' ∨ c = '–' then
      let w2 := wsAux cs2 0
      match takeDigits w2.2 with
      | some (v, n, rest) => some (v, w1.1 + 1 + w2.1 + n, rest)
      | none => none
    else none
  | [] => none

/-- The optional total group: a slash then digits. -/
def tryTotal : List Char → Option (Nat × Nat × List Char)
  | '/' :: cs1 =>
    match takeDigits cs1 with
    | some (v, n, rest) => some (v, 1 + n, rest)
    | none => none
  | _ => none

/-- Tail of the slice pattern after the first number when the range group
does not participate: try the total group, dropping it if the trailing
boundary fails behind it (the character after the first number is then a
slash or the original boundary applies). -/
def noRangeTail (after1 : List Char) :
    Option (Option Nat × Option Nat × Nat × List Char) :=
  match tryTotal after1 with
  | some (d3, l3, r3) =>
    if boundaryOk r3 then some (none, some d3, l3, r3)
    else some (none, none, 0, after1)
  | none =>
    if boundaryOk after1 then some (none, none, 0, after1) else none

/-- Tail of the slice pattern after the first number: greedy range group,
then greedy total group, with the backtracking drops forced by the trailing
word boundary. -/
def sliceTail (after1 : List Char) :
    Option (Option Nat × Option Nat × Nat × List Char) :=
  match tryRange after1 with
  | some (d2, l2, r2) =>
    match tryTotal r2 with
    | some (d3, l3, r3) =>
      if boundaryOk r3 then some (some d2, some d3, l2 + l3, r3)
      else some (some d2, none, l2, r2)
    | none =>
      if boundaryOk r2 then some (some d2, none, l2, r2)
      else noRangeTail after1
  | none => noRangeTail after1

/-- Tail of the image pattern after the first number (no total group). -/
def imageTail (after1 : List Char) :
    Option (Option Nat × Option Nat × Nat × List Char) :=
  match tryRange after1 with
  | some (d2, l2, r2) =>
    if boundaryOk r2 then some (some d2, none, l2, r2)
    else if boundaryOk after1 then some (none, none, 0, after1) else none
  | none =>
    if boundaryOk after1 then some (none, none, 0, after1) else none

/-- Match the literal word of the slice pattern with its optional plural s:
consumed length and rest. -/
def matchWordSlice : List Char → Option (Nat × List Char)
  | c :: 'l' :: 'i' :: 'c' :: 'e' :: rest =>
    if c = 'S' ∨ c = 's' then
      match rest with
      | 's' :: rest2 => some (6, rest2)
      | _ => some (5, rest)
    else none
  | _ => none

def matchWordImage : List Char → Option (Nat × List Char)
  | c :: 'm' :: 'a' :: 'g' :: 'e' :: rest =>
    if c = 'I' ∨ c = 'i' then
      match rest with
      | 's' :: rest2 => some (6, rest2)
      | _ => some (5, rest)
    else none
  | _ => none

/-- Match one pattern occurrence at the head of the input (the caller has
already checked the leading word boundary): first number, second number,
optional total, match length. -/
def matchRefAt (word : List Char → Option (Nat × List Char))
    (tail : List Char → Option (Option Nat × Option Nat × Nat × List Char))
    (cs : List Char) : Option (Nat × Nat × Option Nat × Nat) :=
  match word cs with
  | none => none
  | some (wlen, afterWord) =>
    match takeWs1 afterWord with
    | none => none
    | some (wsn, afterWs) =>
      match takeDigits afterWs with
      | none => none
      | some (d1, n1, after1) =>
        match tail after1 with
        | none => none
        | some (d2, d3, extra, _) =>
          some (d1, d2.getD d1, d3, wlen + wsn + n1 + extra)

structure TextMatch where
  index : Nat
  length : Nat
  fromN : Nat
  toN : Nat
  total : Option Nat
deriving DecidableEq, Repr, Inhabited

/-- Scan the whole input for non-overlapping leftmost matches, as matchAll
does with a global regex.  After a match the scan resumes past it, with the
previous character a digit (hence a word character). -/
def scanRefs (matchAt : List Char → Option (Nat × Nat × Option Nat × Nat)) :
    Nat → Nat → Bool → List Char → List TextMatch
  | 0, _, _, _ => []
  | _ + 1, _, _, [] => []
  | fuel + 1, pos, prevWord, c :: rest =>
    match (if prevWord then none else matchAt (c :: rest)) with
    | some (f, t, tot, len) =>
      ⟨pos, len, f, t, tot⟩ ::
        scanRefs matchAt fuel (pos + len) true ((c :: rest).drop len)
    | none => scanRefs matchAt fuel (pos + 1) (isWordChar c) rest

def sliceRefMatches (text : String) : List TextMatch :=
  scanRefs (matchRefAt matchWordSlice sliceTail) (text.toList.length + 1) 0 false
    text.toList

def imageRefMatches (text : String) : List TextMatch :=
  scanRefs (matchRefAt matchWordImage imageTail) (text.toList.length + 1) 0 false
    text.toList

inductive ParsedSegment where
  | text (content : String)
  | ref (content : String) (fromN toN : Nat) (total : Option Nat) (isLegacy : Bool)
deriving DecidableEq, Repr, Inhabited

def buildSegments (cs : List Char) : List (TextMatch × Bool) → Nat → List ParsedSegment
  | [], lastIndex =>
    if lastIndex < cs.length then [.text (String.mk (cs.drop lastIndex))] else []
  | (m, leg) :: ms, lastIndex =>
    (if lastIndex < m.index then
      [ParsedSegment.text (String.mk ((cs.drop lastIndex).take (m.index - lastIndex)))]
    else []) ++
    ParsedSegment.ref (String.mk ((cs.drop m.index).take m.length))
        m.fromN m.toN m.total leg ::
      buildSegments cs ms (m.index + m.length)

/-- Parse a message into text and reference segments: slice references take
priority, image references are added only where they do not overlap one, and
the result is ordered by position. -/
def parseSliceRefs (text : String) : List ParsedSegment :=
  let cs := text.toList
  let sliceMs := sliceRefMatches text
  let imageMs := (imageRefMatches text).filter (fun im =>
    ¬ sliceMs.any (fun m =>
      im.index < m.index + m.length ∧ m.index < im.index + im.length))
  let all := sortByKey (fun p => (p.1.index : Int))
    (sliceMs.map (fun m => (m, false)) ++ imageMs.map (fun m => (m, true)))
  let segments := buildSegments cs all 0
  if segments.length > 0 then segments else [.text text]

def firstRef : List ParsedSegment → Option (Nat × Nat × Option Nat × Bool)
  | [] => none
  | .text _ :: rest => firstRef rest
  | .ref _ f t tot leg :: _ => some (f, t, tot, leg)

-- ---------------------------------------------------------------------------
-- Slice reference resolution (handleSliceClick in ChatSidebar.tsx)
-- ---------------------------------------------------------------------------

def closerToMid (mid : Int) (best : Option SliceMapping) (m : SliceMapping) :
    Option SliceMapping :=
  match best with
  | none => some m
  | some b =>
    if |m.instanceNumber - mid| < |b.instanceNumber - mid| then some m else best

/-- Instance-number resolution: the in-range mapping closest to the midpoint,
falling back to the globally closest mapping. -/
def resolveInstanceRef (mappings : List SliceMapping) (fromN toN : Nat) :
    Option SliceMapping :=
  let midInstance : Int := ((fromN + toN + 1) / 2 : Nat)
  let inRange := mappings.foldl (fun best m =>
    if m.instanceNumber < (fromN : Int) ∨ (toN : Int) < m.instanceNumber then best
    else closerToMid midInstance best m) none
  match inRange with
  | some mp => some mp
  | none => mappings.foldl (fun best m => closerToMid midInstance best m) none

/-- Legacy 1-based output-position resolution. -/
def resolveLegacyRef (mappings : List SliceMapping) (fromN toN : Nat) :
    Option SliceMapping :=
  let midImage := (fromN + toN + 1) / 2
  match mappings.find? (fun m => m.imageIndex == midImage) with
  | some m => some m
  | none => mappings.find? (fun m => fromN ≤ m.imageIndex ∧ m.imageIndex ≤ toN)

def resolveRef (mappings : List SliceMapping) (fromN toN : Nat) (isLegacy : Bool) :
    Option SliceMapping :=
  if isLegacy then resolveLegacyRef mappings fromN toN
  else resolveInstanceRef mappings fromN toN

/-- Parse a text and resolve its first reference segment against a mapping
list: the round-trip composition the claim describes. -/
def resolveFirstRef (text : String) (mappings : List SliceMapping) :
    Option SliceMapping :=
  match firstRef (parseSliceRefs text) with
  | some (f, t, _, leg) => resolveRef mappings f t leg
  | none => none

-- ---------------------------------------------------------------------------
-- Claim C7: label round-trip
-- ---------------------------------------------------------------------------

def c7M1 : SliceMapping :=
  { imageIndex := 1, instanceNumber := 10, imageId := "a", zPosition := 0,
    label := mkSliceLabel "SAG" 10 2 "z" 0, seriesNumber := "1" }

def c7M2 : SliceMapping :=
  { imageIndex := 2, instanceNumber := 45, imageId := "b", zPosition := 0,
    label := mkSliceLabel "Slice 1 recon" 45 2 "z" 0, seriesNumber := "1" }

def c7Maps : List SliceMapping := [c7M1, c7M2]

/-- Claim C7, counterexample: the claim quantifies over every SliceMapping
produced by the export step.  A series whose description itself contains
slice-reference text (here the description is the string Slice 1 recon)
yields a label whose first parsed reference is that stray description text,
and resolving it returns a mapping with a different instance number than the
label was built from. -/
theorem label_roundtrip_counterexample :
    c7M2.label = mkSliceLabel "Slice 1 recon" c7M2.instanceNumber 2 "z" c7M2.zPosition ∧
      firstRef (parseSliceRefs c7M2.label) = some (1, 1, none, false) ∧
      resolveFirstRef c7M2.label c7Maps = some c7M1 ∧
      c7M1.instanceNumber ≠ c7M2.instanceNumber := by
  refine ⟨rfl, by decide, by decide, by decide⟩

theorem resolveFoldAux (n : Nat) (mid : Int) :
    ∀ (l : List SliceMapping) (acc : Option SliceMapping),
      (acc = none ∨ ∃ b, acc = some b ∧ b.instanceNumber = (n : Int)) →
      ((∃ x ∈ l, x.instanceNumber = (n : Int)) ∨
        ∃ b, acc = some b ∧ b.instanceNumber = (n : Int)) →
      ∃ b, l.foldl (fun best m =>
          if m.instanceNumber < (n : Int) ∨ (n : Int) < m.instanceNumber then best
          else closerToMid mid best m) acc = some b ∧ b.instanceNumber = (n : Int) := by
  intro l
  induction l with
  | nil =>
    intro acc _ hex
    rcases hex with ⟨x, hx, _⟩ | ⟨b, rfl, hb⟩
    · exact absurd hx (List.not_mem_nil x)
    · exact ⟨b, rfl, hb⟩
  | cons y ys ih =>
    intro acc hinv hex
    simp only [List.foldl_cons]
    by_cases hy : y.instanceNumber < (n : Int) ∨ (n : Int) < y.instanceNumber
    · rw [if_pos hy]
      apply ih acc hinv
      rcases hex with ⟨x, hx, hxi⟩ | h
      · rcases List.mem_cons.mp hx with rfl | hx2
        · rcases hy with hy | hy <;> omega
        · exact Or.inl ⟨x, hx2, hxi⟩
      · exact Or.inr h
    · rw [if_neg hy]
      have hyI : y.instanceNumber = (n : Int) := by omega
      have hnew : ∃ b, closerToMid mid acc y = some b ∧ b.instanceNumber = (n : Int) := by
        rcases hinv with rfl | ⟨b, rfl, hb⟩
        · exact ⟨y, rfl, hyI⟩
        · by_cases hlt : |y.instanceNumber - mid| < |b.instanceNumber - mid|
          · refine ⟨y, ?_, hyI⟩
            show (if |y.instanceNumber - mid| < |b.instanceNumber - mid|
                then some y else some b) = some y
            rw [if_pos hlt]
          · refine ⟨b, ?_, hb⟩
            show (if |y.instanceNumber - mid| < |b.instanceNumber - mid|
                then some y else some b) = some b
            rw [if_neg hlt]
      obtain ⟨b, hbe, hbi⟩ := hnew
      rw [hbe]
      exact ih (some b) (Or.inr ⟨b, rfl, hbi⟩) (Or.inr ⟨b, rfl, hbi⟩)

theorem resolveInstanceRef_exact (maps : List SliceMapping) (n : Nat)
    (m : SliceMapping) (hm : m ∈ maps) (hinst : m.instanceNumber = (n : Int)) :
    ∃ b, resolveInstanceRef maps n n = some b ∧ b.instanceNumber = (n : Int) := by
  obtain ⟨b, hfold, hbi⟩ := resolveFoldAux n (((n + n + 1) / 2 : Nat) : Int) maps none
    (Or.inl rfl) (Or.inl ⟨m, hm, hinst⟩)
  refine ⟨b, ?_, hbi⟩
  simp only [resolveInstanceRef]
  rw [hfold]

/-- Claim C7 (amended): for every SliceMapping of the run whose label is the
export-step label and whose label parses to exactly the single non-legacy
reference it was built with (true whenever the series description contains
no slice- or image-reference text of its own), parsing the label and
resolving its first reference against the run's mapping list yields a
mapping whose instance number equals the one the label was built from. -/
theorem label_roundtrip (maps : List SliceMapping) (m : SliceMapping)
    (desc axis : String) (total : Nat)
    (hm : m ∈ maps) (hinst : 0 ≤ m.instanceNumber)
    (hlabel : m.label = mkSliceLabel desc m.instanceNumber total axis m.zPosition)
    (hparse : firstRef (parseSliceRefs m.label)
        = some (m.instanceNumber.toNat, m.instanceNumber.toNat, some total, false)) :
    ∃ b, resolveFirstRef m.label maps = some b ∧
      b.instanceNumber = m.instanceNumber := by
  have hcast : ((m.instanceNumber.toNat : Nat) : Int) = m.instanceNumber :=
    Int.toNat_of_nonneg hinst
  obtain ⟨b, hb, hbi⟩ := resolveInstanceRef_exact maps m.instanceNumber.toNat m hm
    hcast.symm
  refine ⟨b, ?_, by rw [hbi, hcast]⟩
  unfold resolveFirstRef
  rw [hparse]
  exact hb

def c7WM : SliceMapping :=
  { imageIndex := 1, instanceNumber := 7, imageId := "w", zPosition := -12,
    label := mkSliceLabel "SAG T2" 7 50 "z" (-12), seriesNumber := "5" }

/-- Witness for the amended C7 theorem: the label SAG T2 — Slice 7/50
(z=-12mm) parses back to instance 7 and resolves to its own mapping. -/
theorem label_roundtrip_witness :
    ∃ b, resolveFirstRef c7WM.label [c7WM] = some b ∧
      b.instanceNumber = c7WM.instanceNumber :=
  label_roundtrip [c7WM] c7WM "SAG T2" "z" 50 (by decide) (by decide) (by rfl)
    (by decide)

end DICOMassist
